import Mathlib

/-!
# PhoenixOS: checkpoint insertion and CUDA module handles

A shallow embedding of

* `src/pos/cuda_impl/parser.h`  (`POSParser_CUDA`: the checkpoint-insertion policy and the
  parse dispatch table), and
* `src/pos/cuda_impl/handle/module.h` (`POSHandle_CUDA_Module`, `POSHandleManager_CUDA_Module`:
  allocation, pooling, extra serialization and the kernel metadata cache).

Conventions of the embedding.

* A C++ pointer is a natural number, `0` being `nullptr`.  Objects that the code reaches
  through a pointer live in an explicit store (a function from addresses to objects), and a
  method that mutates its receiver returns the updated store.
* `std::set<POSHandle*>` is a `Finset Ptr`, `std::vector<T>` is a `List T`, and
  `std::map<K, V>` is either a function `K → Option V` or an association list.
* `std::string` is the list of its characters, and a file is the list of its lines.
* A run that trips `POS_CHECK_POINTER` (an assertion on a null pointer), that indexes a
  vector out of bounds, or in which an exception is thrown and not caught, has no result:
  the embedded function returns `none`.
* Preprocessor switches (`POS_CKPT_OPT_LEVEL`, `POS_CKPT_ENABLE_INCREMENTAL`,
  `POS_CONF_RUNTIME_EnableDebugCheck`) and constants that are declared outside the embedded
  files are fields of `POSConfig`.
* Collaborators that are declared outside the embedded files and only called here
  (`dag.launch_op`, the base-class `__allocate_mocked_resource`) are function parameters.
-/

namespace PhoenixOS

/-! ## Common data model -/

/-- Status codes of `pos_retval_t` that occur in the embedded sources. -/
inductive pos_retval_t where
  | POS_SUCCESS
  | POS_FAILED
  | POS_FAILED_INVALID_INPUT
  | POS_FAILED_NOT_EXIST
  | POS_FAILED_DRAIN
  deriving DecidableEq, Repr

open pos_retval_t

/-- A C++ object address; `0` is `nullptr`. -/
abbrev Ptr := Nat

/-- The null pointer. -/
def nullptr : Ptr := 0

/-- Compile-time configuration: the preprocessor switches read by the embedded code and the
resource-type constant `kPOS_ResourceTypeId_CUDA_Context`, all declared in headers outside
the embedded files. -/
structure POSConfig where
  POS_CKPT_OPT_LEVEL : Nat
  POS_CKPT_ENABLE_INCREMENTAL : Nat
  POS_CONF_RUNTIME_EnableDebugCheck : Bool
  kPOS_ResourceTypeId_CUDA_Context : Nat
  deriving DecidableEq, Repr

/-! ## Checkpoint insertion (`parser.h`) -/

/-- A queue element `POSAPIContext_QE`: the API id, the owning client (a pointer) and the
handles recorded for a checkpoint operation. -/
structure POSAPIContext_QE where
  api_id : Nat
  client : Ptr
  checkpoint_handles : Finset Ptr
  deriving DecidableEq

/-- Modelled from the spec: the constructor `POSAPIContext_QE_t(api_id, client)` is declared
in `pos/include/api_context.h`, outside the embedded files.  A freshly built node carries the
given api id and client and no recorded checkpoint handle. -/
def POSAPIContext_QE.new (api_id : Nat) (client : Ptr) : POSAPIContext_QE :=
  { api_id := api_id, client := client, checkpoint_handles := ∅ }

/-- Modelled from the spec: `record_checkpoint_handles` is declared in
`pos/include/api_context.h`, outside the embedded files.  The checkpoint operation is tagged
with the given handles: they are inserted into the node's recorded handle set. -/
def POSAPIContext_QE.record_checkpoint_handles (qe : POSAPIContext_QE)
    (handles : Finset Ptr) : POSAPIContext_QE :=
  { qe with checkpoint_handles := qe.checkpoint_handles ∪ handles }

/-- The part of the generic `POSHandleManager<POSHandle>` that checkpoint insertion reads and
writes: the modified-handle set. -/
structure POSHandleManager where
  _modified_handles : Finset Ptr
  deriving DecidableEq

/-- Modelled from the spec: `get_modified_handles` is declared in `pos/include/handle.h`,
outside the embedded files.  It exposes the type's dirty set. -/
def POSHandleManager.get_modified_handles (hm : POSHandleManager) : Finset Ptr :=
  hm._modified_handles

/-- Modelled from the spec: `clear_modified_handle` is declared in `pos/include/handle.h`,
outside the embedded files.  It resets the type's dirty set. -/
def POSHandleManager.clear_modified_handle (hm : POSHandleManager) : POSHandleManager :=
  { hm with _modified_handles := ∅ }

/-- The per-client operation graph, as far as checkpoint insertion is concerned: the nodes
that were enqueued, oldest first. -/
structure POSDag where
  ops : List POSAPIContext_QE
  deriving DecidableEq

/-- The type of `dag.launch_op`: given the graph and a node it answers a status and the new
graph.  The graph executor is outside the embedded files, so the embedded functions take it
as a parameter. -/
abbrev LaunchOp := POSDag → POSAPIContext_QE → pos_retval_t × POSDag

/-- Modelled from the spec: `launch_op(node)` of the operation-graph API, which is outside
the embedded files, enqueues the node into the client's graph. -/
def POSDag.launch_op : LaunchOp :=
  fun dag wqe => (POS_SUCCESS, { ops := dag.ops ++ [wqe] })

/-- A client: its handle managers by resource type id (an absent entry is a null manager
pointer) and its operation graph. -/
structure POSClient where
  handle_managers : Nat → Option POSHandleManager
  dag : POSDag

/-- The macro `pos_get_client_typed_hm(client, id, T)` (declared outside the embedded files):
the manager of the given resource type, `none` standing for a null pointer. -/
def pos_get_client_typed_hm (client : POSClient) (id : Nat) : Option POSHandleManager :=
  client.handle_managers id

/-- Write a mutated manager back into the client: the in-place effect of calling a mutating
method through the pointer returned by `pos_get_client_typed_hm`. -/
def POSClient.set_hm (client : POSClient) (id : Nat) (hm : POSHandleManager) : POSClient :=
  { client with handle_managers := Function.update client.handle_managers id (some hm) }

/-- The workspace fields read by checkpoint insertion. -/
structure POSWorkspace where
  checkpoint_api_id : Nat
  stateful_handle_type_idx : List Nat
  deriving DecidableEq

/-- The clients reachable through the `client` pointer of a queue element. -/
abbrev POSClients := Ptr → POSClient

/-- `POSParser_CUDA::__checkpoint_insertion_naive`: build a fresh checkpoint node for the
client of `wqe` and hand it to `launch_op`. -/
def __checkpoint_insertion_naive (ws : POSWorkspace) (launch_op : LaunchOp)
    (clients : POSClients) (wqe : POSAPIContext_QE) : Option (pos_retval_t × POSClients) :=
  let ckpt_wqe := POSAPIContext_QE.new ws.checkpoint_api_id wqe.client
  let client := clients wqe.client
  let r := launch_op client.dag ckpt_wqe
  some (r.1, Function.update clients wqe.client { client with dag := r.2 })

/-- The `for` loop of `__checkpoint_insertion_incremental` over
`stateful_handle_type_idx`: for each type, fetch the manager (a null manager trips
`POS_CHECK_POINTER`), record its modified handles on the checkpoint node when there are any,
and clear the manager's modified set. -/
def __checkpoint_insertion_incremental_loop (client : POSClient)
    (ckpt_wqe : POSAPIContext_QE) : List Nat → Option (POSClient × POSAPIContext_QE)
  | [] => some (client, ckpt_wqe)
  | stateful_handle_id :: rest =>
    match pos_get_client_typed_hm client stateful_handle_id with
    | none => none
    | some hm =>
      let modified_handles := hm.get_modified_handles
      let ckpt_wqe1 :=
        if modified_handles.card > 0 then ckpt_wqe.record_checkpoint_handles modified_handles
        else ckpt_wqe
      let client1 := client.set_hm stateful_handle_id hm.clear_modified_handle
      __checkpoint_insertion_incremental_loop client1 ckpt_wqe1 rest

/-- `POSParser_CUDA::__checkpoint_insertion_incremental`: build a fresh checkpoint node,
run the collection loop, then hand the node to `launch_op`. -/
def __checkpoint_insertion_incremental (ws : POSWorkspace) (launch_op : LaunchOp)
    (clients : POSClients) (wqe : POSAPIContext_QE) : Option (pos_retval_t × POSClients) :=
  let client := clients wqe.client
  let ckpt_wqe := POSAPIContext_QE.new ws.checkpoint_api_id wqe.client
  match __checkpoint_insertion_incremental_loop client ckpt_wqe ws.stateful_handle_type_idx with
  | none => none
  | some (client1, ckpt_wqe1) =>
    let r := launch_op client1.dag ckpt_wqe1
    some (r.1, Function.update clients wqe.client { client1 with dag := r.2 })

/-- `POSParser_CUDA::checkpoint_insertion`: the strategy is selected by the preprocessor. -/
def checkpoint_insertion (cfg : POSConfig) (ws : POSWorkspace) (launch_op : LaunchOp)
    (clients : POSClients) (wqe : POSAPIContext_QE) : Option (pos_retval_t × POSClients) :=
  if cfg.POS_CKPT_OPT_LEVEL > 0 then
    if cfg.POS_CKPT_ENABLE_INCREMENTAL = 1 then
      __checkpoint_insertion_incremental ws launch_op clients wqe
    else
      __checkpoint_insertion_naive ws launch_op clients wqe
  else
    some (POS_SUCCESS, clients)

/-- Every stateful resource type of the workspace has a manager in the client (no null
manager pointer is met by the collection loop). -/
def managers_present (ws : POSWorkspace) (client : POSClient) : Prop :=
  ∀ id ∈ ws.stateful_handle_type_idx, (client.handle_managers id).isSome = true

instance (ws : POSWorkspace) (client : POSClient) : Decidable (managers_present ws client) := by
  unfold managers_present; infer_instance

/-- The handle `h` is in the modified-handle set of the manager of some stateful type. -/
def modified_somewhere (ws : POSWorkspace) (client : POSClient) (h : Ptr) : Prop :=
  ∃ id ∈ ws.stateful_handle_type_idx, ∃ hm, client.handle_managers id = some hm ∧
    h ∈ hm._modified_handles

/-- The client after the collection loop: the managers of the listed types have an empty
modified set, everything else is as before. -/
def POSClient.cleared (client : POSClient) (idx : List Nat) : POSClient :=
  { client with
    handle_managers := fun id =>
      if id ∈ idx then (client.handle_managers id).map POSHandleManager.clear_modified_handle
      else client.handle_managers id }

/-- Every stateful resource type has a manager whose modified-handle set is empty. -/
def all_clean (ws : POSWorkspace) (client : POSClient) : Prop :=
  ∀ id ∈ ws.stateful_handle_type_idx,
    (client.handle_managers id).map POSHandleManager.get_modified_handles = some ∅

instance (ws : POSWorkspace) (client : POSClient) : Decidable (all_clean ws client) := by
  unfold all_clean; infer_instance

/-- The union, over the listed resource types, of the managers' modified-handle sets: the
set the spec asks the checkpoint node to be tagged with. -/
def modified_union (client : POSClient) : List Nat → Finset Ptr
  | [] => ∅
  | id :: rest =>
    (match client.handle_managers id with
      | some hm => hm._modified_handles
      | none => ∅) ∪ modified_union client rest

/-! ## Sample inputs: checkpoint insertion -/

/-- Incremental strategy. -/
def sample_cfg_incremental : POSConfig :=
  { POS_CKPT_OPT_LEVEL := 1, POS_CKPT_ENABLE_INCREMENTAL := 1,
    POS_CONF_RUNTIME_EnableDebugCheck := true, kPOS_ResourceTypeId_CUDA_Context := 2 }

/-- Naive strategy. -/
def sample_cfg_naive : POSConfig :=
  { POS_CKPT_OPT_LEVEL := 1, POS_CKPT_ENABLE_INCREMENTAL := 0,
    POS_CONF_RUNTIME_EnableDebugCheck := true, kPOS_ResourceTypeId_CUDA_Context := 2 }

/-- Checkpointing disabled (the incremental switch is set but has no effect). -/
def sample_cfg_disabled : POSConfig :=
  { POS_CKPT_OPT_LEVEL := 0, POS_CKPT_ENABLE_INCREMENTAL := 1,
    POS_CONF_RUNTIME_EnableDebugCheck := true, kPOS_ResourceTypeId_CUDA_Context := 2 }

/-- A workspace with two stateful resource types, 3 and 4. -/
def sample_ws : POSWorkspace :=
  { checkpoint_api_id := 100, stateful_handle_type_idx := [3, 4] }

/-- A client whose two stateful managers have nothing modified and whose graph is empty. -/
def sample_client_clean : POSClient :=
  { handle_managers := fun id =>
      if id = 3 ∨ id = 4 then some { _modified_handles := ∅ } else none
    dag := { ops := [] } }

/-- A client whose manager of type 3 has handles 7 and 9 modified and whose manager of type 4
has handle 8 modified. -/
def sample_client_dirty : POSClient :=
  { handle_managers := fun id =>
      if id = 3 then some { _modified_handles := {7, 9} }
      else if id = 4 then some { _modified_handles := {8} }
      else none
    dag := { ops := [] } }

/-- A client with exactly one modified handle, 7, in the manager of type 4. -/
def sample_client_single : POSClient :=
  { handle_managers := fun id =>
      if id = 3 then some { _modified_handles := ∅ }
      else if id = 4 then some { _modified_handles := {7} }
      else none
    dag := { ops := [] } }

/-- Client 1 is the clean client, every other client is the dirty one. -/
def sample_clients_clean : POSClients :=
  fun c => if c = 1 then sample_client_clean else sample_client_dirty

/-- Every client is the dirty one. -/
def sample_clients_dirty : POSClients := fun _ => sample_client_dirty

/-- Every client is the one with the single modified handle. -/
def sample_clients_single : POSClients := fun _ => sample_client_single

/-- A queued operation of client 1. -/
def sample_wqe : POSAPIContext_QE := { api_id := 5, client := 1, checkpoint_handles := ∅ }

/-- A graph executor that refuses every node. -/
def sample_launch_op_failing : LaunchOp := fun dag _ => (POS_FAILED, dag)

/-! ## CUDA module handles (`handle/module.h`) -/

/-- The generic fields of a handle (`POSHandle`, declared in `pos/include/handle.h`): the
mocked client-side address, the size of the handle, its index in the manager, the size of
the state behind it, and its parent and child handles. -/
structure POSHandle where
  client_addr : Nat
  size : Nat
  id : Nat
  state_size : Nat
  parent_handles : Finset Ptr
  child_handles : Finset Ptr
  deriving DecidableEq

/-- `POSHandle_CUDA_Module`: a handle with the function descriptors of the module. -/
structure POSHandle_CUDA_Module extends POSHandle where
  function_desps : List Ptr
  deriving DecidableEq

/-- The handle objects by address. -/
abbrev POSHeap := Ptr → POSHandle

/-- Modelled from the spec: `record_parent_handle` is declared in `pos/include/handle.h`,
outside the embedded files.  It records the parent/child relation: the parent joins the
parent set of the handle, and (the child set being the inverse relation) the handle joins
the child set of the parent. -/
def POSHandle.record_parent_handle (heap : POSHeap) (self parent : Ptr) : POSHeap :=
  let heap1 := Function.update heap self
    { heap self with parent_handles := insert parent (heap self).parent_handles }
  Function.update heap1 parent
    { heap1 parent with child_handles := insert self (heap1 parent).child_handles }

/-! ### Kernel metadata cache: strings, fields and numbers -/

/-- A `std::string`, as the list of its characters. -/
abbrev Str := List Char

/-- The inner loop `while (std::getline(ss, segment, delimiter)) metas.push_back(segment)`
on the characters still to be read, `acc` holding the segment read so far in reverse.  A
delimiter closes the segment, which may be empty; at the end of the input a segment is
produced only when at least one character was read for it. -/
def split_fields (delimiter : Char) : List Char → List Char → List Str
  | [], acc => if acc = [] then [] else [acc.reverse]
  | c :: cs, acc =>
    if c = delimiter then acc.reverse :: split_fields delimiter cs []
    else split_fields delimiter cs (c :: acc)

/-- The fields of a line: the line split at `'|'`. -/
def split_line (line : Str) : List Str := split_fields '|' line []

/-- The C `isspace` of the default locale. -/
def isspace (c : Char) : Bool :=
  c = ' ' || c = '\t' || c = '\n' || c = Char.ofNat 11 || c = Char.ofNat 12 || c = '\r'

/-- The digit loop of `strtoul` in base 10: consume the leading decimal digits, `acc`
being the value read so far. -/
def strtoul_digits : List Char → Nat → Nat
  | [], acc => acc
  | c :: cs, acc =>
    if c.isDigit then strtoul_digits cs (acc * 10 + (c.toNat - 48)) else acc

/-- `std::stoul(str)` with `unsigned long` of 64 bits: leading white space is skipped, an
optional sign is read, then the decimal digits; what follows the digits is ignored.  The
result is `none` when `std::stoul` throws: `std::invalid_argument` when there is no digit,
`std::out_of_range` when the value does not fit 64 bits.  A minus sign negates the value
modulo `2^64`. -/
def stoul (str : Str) : Option Nat :=
  let s := str.dropWhile isspace
  let negative := s.head? = some '-'
  let s := if s.head? = some '-' ∨ s.head? = some '+' then s.tail else s
  match s.head? with
  | none => none
  | some c =>
    if c.isDigit then
      let v := strtoul_digits s 0
      if v ≥ 2 ^ 64 then none
      else some (if negative then (2 ^ 64 - v) % 2 ^ 64 else v)
    else none

/-- `POSCudaFunctionDesp_t`, as far as `generate_desp_from_meta` fills it.  The struct is
declared in `pos/cuda_impl/utils/fatbin.h`, outside the embedded files; its vectors hold the
element types of the local vectors they are assigned from (`uint32_t`, and
`pair<uint32_t, uint64_t>`), and `nb_params`, `has_verified_params` and `cbank_param_size`
are taken to hold the `unsigned long` assigned to them. -/
structure POSCudaFunctionDesp where
  name : Str
  signature : Str
  nb_params : Nat
  param_offsets : List Nat
  param_sizes : List Nat
  input_pointer_params : List Nat
  output_pointer_params : List Nat
  inout_pointer_params : List Nat
  suspicious_params : List Nat
  has_verified_params : Nat
  confirmed_suspicious_params : List (Nat × Nat)
  cbank_param_size : Nat
  deriving DecidableEq

/-- The loops `for(i=0; i<n; i++){ v.push_back(std::stoul(metas[ptr+i])); }` into a
`std::vector<uint32_t>`: `i` is the loop counter and `n` the number of rounds left.  The
unchecked `metas[ptr+i]` past the end of the vector, or a throwing `std::stoul`, leaves no
result. -/
def read_u32_params (metas : List Str) (ptr : Nat) : Nat → Nat → Option (List Nat)
  | _, 0 => some []
  | i, n + 1 =>
    (metas[ptr + i]?).bind fun field =>
    (stoul field).bind fun v =>
    (read_u32_params metas ptr (i + 1) n).bind fun rest =>
    some (v % 2 ^ 32 :: rest)

/-- The loop that fills `confirmed_suspicious_params`: round `i` pushes the pair
`{std::stoul(metas[ptr+2*i]), std::stoul(metas[ptr+2*i+1])}` of a `uint32_t` and a
`uint64_t`. -/
def read_confirmed_params (metas : List Str) (ptr : Nat) : Nat → Nat → Option (List (Nat × Nat))
  | _, 0 => some []
  | i, n + 1 =>
    (metas[ptr + 2 * i]?).bind fun field1 =>
    (stoul field1).bind fun param_index =>
    (metas[ptr + 2 * i + 1]?).bind fun field2 =>
    (stoul field2).bind fun offset =>
    (read_confirmed_params metas ptr (i + 1) n).bind fun rest =>
    some ((param_index % 2 ^ 32, offset % 2 ^ 64) :: rest)

/-- One of the four blocks of `generate_desp_from_meta` that read a counted list (input,
output, inout and suspicious parameters): the count is read at the cursor, `ptr++`, the loop
reads that many fields, `ptr += count`.  The result is the list and the cursor after the
block. -/
def read_counted_u32_params (metas : List Str) (ptr : Nat) : Option (List Nat × Nat) :=
  ((metas[ptr]?).bind stoul).bind fun nb =>
  let ptr := ptr + 1
  (read_u32_params metas ptr 0 nb).bind fun params =>
  let ptr := ptr + nb
  some (params, ptr)

/-- The end of `generate_desp_from_meta`, from `has_verified_params` on: the value of
`has_verified_params`, the confirmed pairs (left empty when `has_verified_params` is not 1)
and the cbank parameter size.  After the pairs the cursor is advanced by
`nb_confirmed_suspicious_params`, as in the source. -/
def read_verified_params (metas : List Str) (ptr : Nat) :
    Option (Nat × List (Nat × Nat) × Nat) :=
  -- has verified suspicious parameters
  ((metas[ptr]?).bind stoul).bind fun has_verified_params =>
  let ptr := ptr + 1
  if has_verified_params = 1 then
    ((metas[ptr]?).bind stoul).bind fun nb_confirmed_suspicious_params =>
    let ptr := ptr + 1
    (read_confirmed_params metas ptr 0 nb_confirmed_suspicious_params).bind
      fun confirmed_suspicious_params =>
    let ptr := ptr + nb_confirmed_suspicious_params
    -- cbank parameter size
    ((metas[ptr]?).bind stoul).bind fun cbank_param_size =>
    some (has_verified_params, confirmed_suspicious_params, cbank_param_size)
  else
    -- cbank parameter size
    ((metas[ptr]?).bind stoul).bind fun cbank_param_size =>
    some (has_verified_params, [], cbank_param_size)

/-- The lambda `generate_desp_from_meta` of `load_cached_function_metas`: walk the fields of
one line with the cursor `ptr`.  No field access is bounds-checked and no exception of
`std::stoul` is caught, so a run that reads past the end of `metas` or in which `std::stoul`
throws has no result (`none`).  `ptr` and the counts are 64-bit unsigned; a run with a result
has read every field it counted, so no sum here exceeds the number of fields. -/
def generate_desp_from_meta (metas : List Str) : Option POSCudaFunctionDesp :=
  let ptr := 0
  -- mangled name of the kernel
  (metas[ptr]?).bind fun name =>
  let ptr := ptr + 1
  -- signature of the kernel
  (metas[ptr]?).bind fun signature =>
  let ptr := ptr + 1
  -- number of parameters
  ((metas[ptr]?).bind stoul).bind fun nb_params =>
  let ptr := ptr + 1
  -- parameter offsets
  (read_u32_params metas ptr 0 nb_params).bind fun param_offsets =>
  let ptr := ptr + nb_params
  -- parameter sizes
  (read_u32_params metas ptr 0 nb_params).bind fun param_sizes =>
  let ptr := ptr + nb_params
  -- input, output, inout and suspicious parameters
  (read_counted_u32_params metas ptr).bind fun input =>
  (read_counted_u32_params metas input.2).bind fun output =>
  (read_counted_u32_params metas output.2).bind fun inout =>
  (read_counted_u32_params metas inout.2).bind fun suspicious =>
  -- has verified suspicious parameters, confirmed pairs, cbank parameter size
  (read_verified_params metas suspicious.2).bind fun verified =>
  some { name := name, signature := signature, nb_params := nb_params,
         param_offsets := param_offsets, param_sizes := param_sizes,
         input_pointer_params := input.1,
         output_pointer_params := output.1,
         inout_pointer_params := inout.1,
         suspicious_params := suspicious.1,
         has_verified_params := verified.1,
         confirmed_suspicious_params := verified.2.1,
         cbank_param_size := verified.2.2 }

/-- The map `cached_function_desps`, `std::map<std::string, POSCudaFunctionDesp_t*>`, as an
association list from kernel name to descriptor. -/
abbrev FunctionDespMap := List (Str × POSCudaFunctionDesp)

/-- `std::map::insert` of one pair: nothing happens when the key is already in the map. -/
def FunctionDespMap.insert (m : FunctionDespMap) (key : Str) (desp : POSCudaFunctionDesp) :
    FunctionDespMap :=
  if (m.lookup key).isSome then m else m ++ [(key, desp)]

/-- `POSHandleManager_CUDA_Module`: the generic manager state, the handles it owns and the
cached function descriptors. -/
structure POSHandleManager_CUDA_Module extends POSHandleManager where
  _handles : List Ptr
  cached_function_desps : FunctionDespMap := []
  deriving DecidableEq

/-- The `related_handles` argument, `std::map<uint64_t, std::vector<POSHandle*>>`, as an
association list from resource type id to handles. -/
abbrev RelatedHandles := List (Nat × List Ptr)

/-- All handles held by a `related_handles` map, whatever their type. -/
def RelatedHandles.all_handles (related_handles : RelatedHandles) : Finset Ptr :=
  (related_handles.map (fun kv => kv.2)).flatten.toFinset

/-- The type of the base-class `__allocate_mocked_resource`, which is declared in
`pos/include/handle.h`, outside the embedded files, and is a parameter of the embedding.
It is given the manager, the handle store, the current content of the output slot
`*handle`, and `size`, `use_expected_addr`, `expected_addr`, `state_size`; it answers a
status, the new manager, the new handle store and the new content of `*handle`. -/
abbrev AllocateMocked :=
  POSHandleManager_CUDA_Module → POSHeap → Ptr → Nat → Bool → Nat → Nat →
    pos_retval_t × POSHandleManager_CUDA_Module × POSHeap × Ptr

/-- `POSHandleManager_CUDA_Module::allocate_mocked_resource`.  The result is the status, the
manager, the handle store and the content of `*handle`; `none` stands for a run that indexes
the context list out of bounds or trips `POS_CHECK_POINTER`.  The output slot `handle`
itself is never null here, so `POS_CHECK_POINTER(handle)` passes. -/
def POSHandleManager_CUDA_Module.allocate_mocked_resource (cfg : POSConfig)
    (__allocate_mocked_resource : AllocateMocked)
    (hm : POSHandleManager_CUDA_Module) (heap : POSHeap) (handle : Ptr)
    (related_handles : RelatedHandles) (size : Nat) (use_expected_addr : Bool)
    (expected_addr : Nat) (state_size : Nat) :
    Option (pos_retval_t × POSHandleManager_CUDA_Module × POSHeap × Ptr) :=
  if cfg.POS_CONF_RUNTIME_EnableDebugCheck = true ∧
      (related_handles.lookup cfg.kPOS_ResourceTypeId_CUDA_Context).isNone = true then
    some (POS_FAILED_INVALID_INPUT, hm, heap, handle)
  else
    -- `related_handles[kPOS_ResourceTypeId_CUDA_Context][0]`: `operator[]` of the map
    -- default-constructs an empty vector for an absent key, `[0]` is unchecked
    match ((related_handles.lookup cfg.kPOS_ResourceTypeId_CUDA_Context).getD []).head? with
    | none => none
    | some context_handle =>
      if context_handle = nullptr then none
      else
        let r := __allocate_mocked_resource hm heap handle size use_expected_addr
          expected_addr state_size
        if r.1 ≠ POS_SUCCESS then some r
        else if r.2.2.2 = nullptr then none
        else
          some (r.1, r.2.1, POSHandle.record_parent_handle r.2.2.1 r.2.2.2 context_handle,
            r.2.2.2)

/-- `POSHandle_CUDA_Module::__get_extra_serialize_size`. -/
def POSHandle_CUDA_Module.__get_extra_serialize_size (_self : POSHandle_CUDA_Module) : Nat := 0

/-- `POSHandle_CUDA_Module::__serialize_extra`: the status and the bytes of the serialized
area after the call. -/
def POSHandle_CUDA_Module.__serialize_extra (_self : POSHandle_CUDA_Module)
    (serialized_area : List Nat) : pos_retval_t × List Nat :=
  (POS_SUCCESS, serialized_area)

/-- `POSHandle_CUDA_Module::__deserialize_extra`: the status and the handle after the
call. -/
def POSHandle_CUDA_Module.__deserialize_extra (self : POSHandle_CUDA_Module)
    (_raw_data : List Nat) : pos_retval_t × POSHandle_CUDA_Module :=
  (POS_SUCCESS, self)

/-- `POSHandleManager_CUDA_Module::load_cached_function_metas`, the loop over the lines of
the opened file: split the line at `'|'`, build the descriptor, insert it under its name. -/
def load_cached_function_metas_lines (cached_function_desps : FunctionDespMap) :
    List Str → Option FunctionDespMap
  | [] => some cached_function_desps
  | line :: rest =>
    match generate_desp_from_meta (split_line line) with
    | none => none
    | some new_desp =>
      load_cached_function_metas_lines
        (cached_function_desps.insert new_desp.name new_desp) rest

/-- The files that `std::ifstream` can open, by path, each as the list of its lines; `none`
for a path that cannot be opened. -/
abbrev FileSystem := Str → Option (List Str)

/-- `POSHandleManager_CUDA_Module::load_cached_function_metas`. -/
def POSHandleManager_CUDA_Module.load_cached_function_metas (fs : FileSystem)
    (hm : POSHandleManager_CUDA_Module) (file_path : Str) :
    Option (pos_retval_t × POSHandleManager_CUDA_Module) :=
  match fs file_path with
  | some lines =>
    match load_cached_function_metas_lines hm.cached_function_desps lines with
    | none => none
    | some desps => some (POS_SUCCESS, { hm with cached_function_desps := desps })
  | none => some (POS_FAILED_NOT_EXIST, hm)

/-- `POSHandleManager_CUDA_Module::preserve_pooled_handles`: the status and the manager
after the call. -/
def POSHandleManager_CUDA_Module.preserve_pooled_handles (hm : POSHandleManager_CUDA_Module)
    (_amount : Nat) : pos_retval_t × POSHandleManager_CUDA_Module :=
  (POS_SUCCESS, hm)

/-- `POSHandleManager_CUDA_Module::try_restore_from_pool`: the status, the manager and the
handle after the call. -/
def POSHandleManager_CUDA_Module.try_restore_from_pool (hm : POSHandleManager_CUDA_Module)
    (handle : POSHandle_CUDA_Module) :
    pos_retval_t × POSHandleManager_CUDA_Module × POSHandle_CUDA_Module :=
  (POS_FAILED, hm, handle)

/-! ## The parse dispatch table (`parser.h`) -/

/-- The API index constants named in `init_ps_functions`.  Their values are declared in
`pos/cuda_impl/api_index.h` and the RPC protocol header, outside the embedded files, and are
a parameter of the embedding. -/
inductive ApiIndex where
  | CUDA_MALLOC
  | CUDA_FREE
  | CUDA_LAUNCH_KERNEL
  | CUDA_MEMCPY_HTOD
  | CUDA_MEMCPY_DTOH
  | CUDA_MEMCPY_DTOD
  | CUDA_MEMCPY_HTOD_ASYNC
  | CUDA_MEMCPY_DTOH_ASYNC
  | CUDA_MEMCPY_DTOD_ASYNC
  | CUDA_SET_DEVICE
  | CUDA_GET_LAST_ERROR
  | CUDA_GET_ERROR_STRING
  | CUDA_PEEK_AT_LAST_ERROR
  | CUDA_GET_DEVICE_COUNT
  | CUDA_GET_DEVICE_PROPERTIES
  | CUDA_DEVICE_GET_ATTRIBUTE
  | CUDA_GET_DEVICE
  | CUDA_FUNC_GET_ATTRIBUTES
  | CUDA_OCCUPANCY_MAX_ACTIVE_BPM_WITH_FLAGS
  | CUDA_STREAM_SYNCHRONIZE
  | CUDA_STREAM_IS_CAPTURING
  | CUDA_EVENT_CREATE_WITH_FLAGS
  | CUDA_EVENT_DESTROY
  | CUDA_EVENT_RECORD
  | rpc_cuModuleLoad
  | rpc_cuModuleLoadData
  | rpc_register_function
  | rpc_cuModuleGetFunction
  | rpc_register_var
  | rpc_cuCtxGetCurrent
  | rpc_cuDevicePrimaryCtxGetState
  | rpc_cuLaunchKernel
  | rpc_cublasCreate
  | rpc_cublasSetStream
  | rpc_cublasSetMathMode
  | rpc_cublasSgemm
  | rpc_cublasSgemmStridedBatched
  | rpc_deinit
  deriving DecidableEq, Repr

/-- The parse routines `ps_functions::<name>::parse` declared at the top of `parser.h`. -/
inductive ps_functions where
  | cuda_malloc
  | cuda_free
  | cuda_launch_kernel
  | cuda_memcpy_h2d
  | cuda_memcpy_d2h
  | cuda_memcpy_d2d
  | cuda_memcpy_h2d_async
  | cuda_memcpy_d2h_async
  | cuda_memcpy_d2d_async
  | cuda_set_device
  | cuda_get_last_error
  | cuda_get_error_string
  | cuda_peek_at_last_error
  | cuda_get_device_count
  | cuda_get_device_properties
  | cuda_device_get_attribute
  | cuda_get_device
  | cuda_func_get_attributes
  | cuda_occupancy_max_active_bpm_with_flags
  | cuda_stream_synchronize
  | cuda_stream_is_capturing
  | cuda_event_create_with_flags
  | cuda_event_destory
  | cuda_event_record
  | __register_function
  | cu_module_load
  | cu_module_load_data
  | cu_module_get_function
  | cu_module_get_global
  | cu_ctx_get_current
  | cu_device_primary_ctx_get_state
  | cublas_create
  | cublas_set_stream
  | cublas_set_math_mode
  | cublas_sgemm
  | cublas_sgemm_strided_batched
  | remoting_deinit
  deriving DecidableEq, Repr

/-- The initializer list of `init_ps_functions`, in source order. -/
def ps_table : List (ApiIndex × ps_functions) :=
  [
    (ApiIndex.CUDA_MALLOC, ps_functions.cuda_malloc),
    (ApiIndex.CUDA_FREE, ps_functions.cuda_free),
    (ApiIndex.CUDA_LAUNCH_KERNEL, ps_functions.cuda_launch_kernel),
    (ApiIndex.CUDA_MEMCPY_HTOD, ps_functions.cuda_memcpy_h2d),
    (ApiIndex.CUDA_MEMCPY_DTOH, ps_functions.cuda_memcpy_d2h),
    (ApiIndex.CUDA_MEMCPY_DTOD, ps_functions.cuda_memcpy_d2d),
    (ApiIndex.CUDA_MEMCPY_HTOD_ASYNC, ps_functions.cuda_memcpy_h2d_async),
    (ApiIndex.CUDA_MEMCPY_DTOH_ASYNC, ps_functions.cuda_memcpy_d2h_async),
    (ApiIndex.CUDA_MEMCPY_DTOD_ASYNC, ps_functions.cuda_memcpy_d2d_async),
    (ApiIndex.CUDA_SET_DEVICE, ps_functions.cuda_set_device),
    (ApiIndex.CUDA_GET_LAST_ERROR, ps_functions.cuda_get_last_error),
    (ApiIndex.CUDA_GET_ERROR_STRING, ps_functions.cuda_get_error_string),
    (ApiIndex.CUDA_PEEK_AT_LAST_ERROR, ps_functions.cuda_peek_at_last_error),
    (ApiIndex.CUDA_GET_DEVICE_COUNT, ps_functions.cuda_get_device_count),
    (ApiIndex.CUDA_GET_DEVICE_PROPERTIES, ps_functions.cuda_get_device_properties),
    (ApiIndex.CUDA_DEVICE_GET_ATTRIBUTE, ps_functions.cuda_device_get_attribute),
    (ApiIndex.CUDA_GET_DEVICE, ps_functions.cuda_get_device),
    (ApiIndex.CUDA_FUNC_GET_ATTRIBUTES, ps_functions.cuda_func_get_attributes),
    (ApiIndex.CUDA_OCCUPANCY_MAX_ACTIVE_BPM_WITH_FLAGS, ps_functions.cuda_occupancy_max_active_bpm_with_flags),
    (ApiIndex.CUDA_STREAM_SYNCHRONIZE, ps_functions.cuda_stream_synchronize),
    (ApiIndex.CUDA_STREAM_IS_CAPTURING, ps_functions.cuda_stream_is_capturing),
    (ApiIndex.CUDA_EVENT_CREATE_WITH_FLAGS, ps_functions.cuda_event_create_with_flags),
    (ApiIndex.CUDA_EVENT_DESTROY, ps_functions.cuda_event_destory),
    (ApiIndex.CUDA_EVENT_RECORD, ps_functions.cuda_event_record),
    (ApiIndex.rpc_cuModuleLoad, ps_functions.cu_module_load),
    (ApiIndex.rpc_cuModuleLoadData, ps_functions.cu_module_load_data),
    (ApiIndex.rpc_register_function, ps_functions.__register_function),
    (ApiIndex.rpc_cuModuleGetFunction, ps_functions.cu_module_get_function),
    (ApiIndex.rpc_register_var, ps_functions.cu_module_get_global),
    (ApiIndex.rpc_cuCtxGetCurrent, ps_functions.cu_ctx_get_current),
    (ApiIndex.rpc_cuDevicePrimaryCtxGetState, ps_functions.cu_device_primary_ctx_get_state),
    (ApiIndex.rpc_cuLaunchKernel, ps_functions.cuda_launch_kernel),
    (ApiIndex.rpc_cublasCreate, ps_functions.cublas_create),
    (ApiIndex.rpc_cublasSetStream, ps_functions.cublas_set_stream),
    (ApiIndex.rpc_cublasSetMathMode, ps_functions.cublas_set_math_mode),
    (ApiIndex.rpc_cublasSgemm, ps_functions.cublas_sgemm),
    (ApiIndex.rpc_cublasSgemmStridedBatched, ps_functions.cublas_sgemm_strided_batched),
    (ApiIndex.rpc_deinit, ps_functions.remoting_deinit) ]

/-- The map `_parser_functions`, from API id to parse routine. -/
abbrev ParserFunctions := List (Nat × ps_functions)

/-- `std::map::insert` of one pair: nothing happens when the key is already in the map. -/
def ParserFunctions.insert (m : ParserFunctions) (api_id : Nat) (parse : ps_functions) :
    ParserFunctions :=
  if (m.lookup api_id).isSome then m else m ++ [(api_id, parse)]

/-- `std::map::insert` of an initializer list: the pairs are inserted one after the
other. -/
def ParserFunctions.insert_list (m : ParserFunctions) :
    List (Nat × ps_functions) → ParserFunctions
  | [] => m
  | (api_id, parse) :: rest => ParserFunctions.insert_list (m.insert api_id parse) rest

/-- `POSParser_CUDA::init_ps_functions`: the status and `_parser_functions` after the call,
`api` giving the values of the API index constants. -/
def init_ps_functions (api : ApiIndex → Nat) (_parser_functions : ParserFunctions) :
    pos_retval_t × ParserFunctions :=
  (POS_SUCCESS,
    _parser_functions.insert_list (ps_table.map fun entry => (api entry.1, entry.2)))

/-! ## Well-formed lines of the kernel metadata cache -/

/-- The decimal digits of `n`, most significant first; `fuel` bounds the number of digits. -/
def decimal_digits : Nat → Nat → List Char
  | 0, _ => []
  | fuel + 1, n =>
    if n < 10 then [Char.ofNat (48 + n)]
    else decimal_digits fuel (n / 10) ++ [Char.ofNat (48 + n % 10)]

/-- The number `n` written in decimal. -/
def decimal (n : Nat) : Str := decimal_digits (n + 1) n

/-- The fields of a line joined by `'|'`. -/
def join_fields : List Str → Str
  | [] => []
  | [f] => f
  | f :: g :: rest => f ++ '|' :: join_fields (g :: rest)

/-- What a line of the cache file describes: the kernel name and signature, the parameter
offsets and sizes, the input, output, inout and suspicious parameter indices, the
`has_verified_params` field, the confirmed pairs (written only when `has_verified_params`
is 1) and the cbank parameter size. -/
structure CachedMetaLine where
  name : Str
  signature : Str
  param_offsets : List Nat
  param_sizes : List Nat
  input_pointer_params : List Nat
  output_pointer_params : List Nat
  inout_pointer_params : List Nat
  suspicious_params : List Nat
  has_verified_params : Nat
  confirmed_suspicious_params : List (Nat × Nat)
  cbank_param_size : Nat
  deriving DecidableEq

/-- The numbers of the confirmed pairs in file order: index, offset, index, offset, ... -/
def flatten_pairs : List (Nat × Nat) → List Nat
  | [] => []
  | (param_index, offset) :: rest => param_index :: offset :: flatten_pairs rest

/-- The fields that follow the suspicious parameters: `has_verified_params`, then, when it
is 1, the number of confirmed pairs and the pairs, then the cbank parameter size. -/
def CachedMetaLine.verified_fields (l : CachedMetaLine) : List Str :=
  if l.has_verified_params = 1 then
    decimal l.has_verified_params :: decimal l.confirmed_suspicious_params.length ::
      ((flatten_pairs l.confirmed_suspicious_params).map decimal ++
        [decimal l.cbank_param_size])
  else
    [decimal l.has_verified_params, decimal l.cbank_param_size]

/-- The fields of a well-formed line, in file order. -/
def CachedMetaLine.fields (l : CachedMetaLine) : List Str :=
  l.name :: l.signature :: decimal l.param_offsets.length ::
    (l.param_offsets.map decimal ++ (l.param_sizes.map decimal ++
      (decimal l.input_pointer_params.length :: (l.input_pointer_params.map decimal ++
        (decimal l.output_pointer_params.length :: (l.output_pointer_params.map decimal ++
          (decimal l.inout_pointer_params.length :: (l.inout_pointer_params.map decimal ++
            (decimal l.suspicious_params.length :: (l.suspicious_params.map decimal ++
              l.verified_fields))))))))))

/-- The line as it stands in the file. -/
def CachedMetaLine.render (l : CachedMetaLine) : Str := join_fields l.fields

/-- Every number of the list is below `2^32`. -/
def all_u32 (vs : List Nat) : Prop := ∀ v ∈ vs, v < 2 ^ 32

instance (vs : List Nat) : Decidable (all_u32 vs) := by
  unfold all_u32; infer_instance

/-- A well-formed line: name and signature hold no `'|'`, there are as many parameter sizes
as parameter offsets, and every number, the counts included, is below `2^32`. -/
def CachedMetaLine.well_formed (l : CachedMetaLine) : Prop :=
  '|' ∉ l.name ∧ '|' ∉ l.signature ∧
  l.param_sizes.length = l.param_offsets.length ∧
  l.param_offsets.length < 2 ^ 32 ∧ all_u32 l.param_offsets ∧ all_u32 l.param_sizes ∧
  l.input_pointer_params.length < 2 ^ 32 ∧ all_u32 l.input_pointer_params ∧
  l.output_pointer_params.length < 2 ^ 32 ∧ all_u32 l.output_pointer_params ∧
  l.inout_pointer_params.length < 2 ^ 32 ∧ all_u32 l.inout_pointer_params ∧
  l.suspicious_params.length < 2 ^ 32 ∧ all_u32 l.suspicious_params ∧
  l.has_verified_params < 2 ^ 32 ∧
  l.confirmed_suspicious_params.length < 2 ^ 32 ∧
  all_u32 (flatten_pairs l.confirmed_suspicious_params) ∧
  l.cbank_param_size < 2 ^ 32

instance (l : CachedMetaLine) : Decidable l.well_formed := by
  unfold CachedMetaLine.well_formed; infer_instance

/-- The descriptor that a well-formed line describes. -/
def CachedMetaLine.desp (l : CachedMetaLine) : POSCudaFunctionDesp :=
  { name := l.name, signature := l.signature, nb_params := l.param_offsets.length,
    param_offsets := l.param_offsets, param_sizes := l.param_sizes,
    input_pointer_params := l.input_pointer_params,
    output_pointer_params := l.output_pointer_params,
    inout_pointer_params := l.inout_pointer_params,
    suspicious_params := l.suspicious_params,
    has_verified_params := l.has_verified_params,
    confirmed_suspicious_params :=
      if l.has_verified_params = 1 then l.confirmed_suspicious_params else [],
    cbank_param_size := l.cbank_param_size }

/-- The characters of a decimal rendering: digits, none of which is a field delimiter, a
sign or white space. -/
def plain_digit (c : Char) : Prop :=
  c.isDigit = true ∧ c ≠ '|' ∧ c ≠ '-' ∧ c ≠ '+' ∧ isspace c = false

/-- The descriptor built from the earliest line, among the given ones, that carries the
given kernel name. -/
def earliest_desp (ls : List CachedMetaLine) (name : Str) : Option POSCudaFunctionDesp :=
  (ls.find? fun l => decide (l.name = name)).bind fun l =>
    generate_desp_from_meta (split_line l.render)

/-! ## Sample inputs: kernel metadata cache and dispatch table -/

/-- The line `k|s|2|0|8|8|8|1|0|1|1|0|0|0|16`: two parameters, one input and one output
pointer, `has_verified_params` 0, cbank parameter size 16. -/
def sample_line_plain : CachedMetaLine :=
  { name := "k".toList, signature := "s".toList, param_offsets := [0, 8],
    param_sizes := [8, 8], input_pointer_params := [0], output_pointer_params := [1],
    inout_pointer_params := [], suspicious_params := [], has_verified_params := 0,
    confirmed_suspicious_params := [], cbank_param_size := 16 }

/-- The line `v|s|0|0|0|0|0|1|1|3|40|16`: no parameter, `has_verified_params` 1, one
confirmed pair (3, 40), cbank parameter size 16. -/
def sample_line_verified : CachedMetaLine :=
  { name := "v".toList, signature := "s".toList, param_offsets := [],
    param_sizes := [], input_pointer_params := [], output_pointer_params := [],
    inout_pointer_params := [], suspicious_params := [], has_verified_params := 1,
    confirmed_suspicious_params := [(3, 40)], cbank_param_size := 16 }

/-- The line `k|t|0|0|0|0|0|0|32`: the kernel name of `sample_line_plain` again, with other
content. -/
def sample_line_late : CachedMetaLine :=
  { name := "k".toList, signature := "t".toList, param_offsets := [],
    param_sizes := [], input_pointer_params := [], output_pointer_params := [],
    inout_pointer_params := [], suspicious_params := [], has_verified_params := 0,
    confirmed_suspicious_params := [], cbank_param_size := 32 }

/-- A file system with three files: `metas` holds the three sample lines, `verified` holds
the line with a confirmed pair, `blank` holds one empty line.  No other path can be
opened. -/
def sample_fs : FileSystem := fun path =>
  if path = "metas".toList then
    some [sample_line_plain.render, sample_line_verified.render, sample_line_late.render]
  else if path = "verified".toList then some [sample_line_verified.render]
  else if path = "blank".toList then some [[]]
  else none

/-- A module manager whose cache already holds a descriptor under the kernel name `v`. -/
def sample_hm_cached : POSHandleManager_CUDA_Module :=
  { _modified_handles := ∅, _handles := [],
    cached_function_desps := [("v".toList, sample_line_late.desp)] }

/-- API index values: each constant is given its position in the declaration. -/
def sample_api (a : ApiIndex) : Nat := a.toCtorIdx

/-! ## Sample inputs: module allocation -/

/-- A handle with no relation. -/
def sample_handle : POSHandle :=
  { client_addr := 0, size := 0, id := 0, state_size := 0,
    parent_handles := ∅, child_handles := ∅ }

/-- A handle store in which no handle has any relation. -/
def sample_heap : POSHeap := fun _ => sample_handle

/-- A module manager that owns no handle. -/
def sample_hm : POSHandleManager_CUDA_Module :=
  { _modified_handles := ∅, _handles := [] }

/-- Modelled from the spec: a base-class allocator with room for handles of size at most
`room`.  A request that fits creates a new handle, with no relation yet, at address `obj`,
and the manager owns it; a request that does not fit fails with `POS_FAILED_DRAIN` (the
address space is drained) and leaves manager, store and output slot as they were. -/
def sample_allocate (obj : Ptr) (room : Nat) : AllocateMocked :=
  fun hm heap handle size use_expected_addr expected_addr state_size =>
    if room < size then (POS_FAILED_DRAIN, hm, heap, handle)
    else
      (POS_SUCCESS, { hm with _handles := hm._handles ++ [obj] },
        Function.update heap obj
          { client_addr := if use_expected_addr then expected_addr else obj, size := size,
            id := hm._handles.length, state_size := state_size,
            parent_handles := ∅, child_handles := ∅ },
        obj)

/-- One context handle, at address 5, under the context type id 2. -/
def sample_related_one : RelatedHandles := [(2, [5])]

/-- Two context handles, at addresses 5 and 6, under the context type id 2. -/
def sample_related_two : RelatedHandles := [(2, [5, 6])]

/-- One context handle under the context type id 2 and a handle of another type. -/
def sample_related_mixed : RelatedHandles := [(2, [5]), (9, [7])]

/-! ## Theorems: checkpoint insertion -/

theorem clear_modified_handle_idem (hm : POSHandleManager) :
    hm.clear_modified_handle.clear_modified_handle = hm.clear_modified_handle := rfl

/-- Recording a (possibly empty) modified set under the size guard of the loop is the union
with that set. -/
theorem record_guarded_handles (ckpt : POSAPIContext_QE) (s : Finset Ptr) :
    (if s.card > 0 then ckpt.record_checkpoint_handles s else ckpt)
      = { ckpt with checkpoint_handles := ckpt.checkpoint_handles ∪ s } := by
  by_cases hs : s.card > 0
  · simp [hs, POSAPIContext_QE.record_checkpoint_handles]
  · have h0 : s = ∅ := by
      have : s.card = 0 := by omega
      exact Finset.card_eq_zero.mp this
    subst h0
    simp

/-- The collection loop, when every listed type has a manager: it ends, leaves the graph
alone, clears exactly the listed managers, keeps api id and client of the node, and adds to
the node exactly the handles that were modified in a listed manager. -/
theorem incremental_loop_spec (idx : List Nat) :
    ∀ (client : POSClient) (ckpt : POSAPIContext_QE),
      (∀ id ∈ idx, (client.handle_managers id).isSome = true) →
      ∃ ckpt1, __checkpoint_insertion_incremental_loop client ckpt idx
          = some (client.cleared idx, ckpt1) ∧
        ckpt1.api_id = ckpt.api_id ∧ ckpt1.client = ckpt.client ∧
        ∀ h, h ∈ ckpt1.checkpoint_handles ↔
          (h ∈ ckpt.checkpoint_handles ∨
            ∃ id ∈ idx, ∃ hm, client.handle_managers id = some hm ∧ h ∈ hm._modified_handles) := by
  induction idx with
  | nil =>
    intro client ckpt _
    refine ⟨ckpt, ?_, rfl, rfl, ?_⟩
    · simp [__checkpoint_insertion_incremental_loop, POSClient.cleared]
    · intro h; simp
  | cons a rest ih =>
    intro client ckpt hpres
    obtain ⟨hm, hhm⟩ := Option.isSome_iff_exists.mp (hpres a (by simp))
    have hpres1 : ∀ id ∈ rest,
        ((client.set_hm a hm.clear_modified_handle).handle_managers id).isSome = true := by
      intro id hid
      by_cases hia : id = a
      · subst hia; simp [POSClient.set_hm]
      · simpa [POSClient.set_hm, Function.update_noteq hia] using hpres id (by simp [hid])
    obtain ⟨ckpt1, hrun, hapi, hcl, hmem⟩ :=
      ih (client.set_hm a hm.clear_modified_handle)
        { ckpt with checkpoint_handles := ckpt.checkpoint_handles ∪ hm._modified_handles } hpres1
    refine ⟨ckpt1, ?_, hapi, hcl, ?_⟩
    · simp only [__checkpoint_insertion_incremental_loop, pos_get_client_typed_hm, hhm,
        POSHandleManager.get_modified_handles, record_guarded_handles]
      rw [hrun]
      congr 2
      simp only [POSClient.cleared, POSClient.set_hm]
      congr 1
      funext id
      by_cases hia : id = a
      · subst hia
        by_cases hr : id ∈ rest <;> simp [hr, hhm, POSHandleManager.clear_modified_handle]
      · by_cases hr : id ∈ rest <;> simp [hr, hia, Function.update_noteq hia]
    · intro h
      rw [hmem]
      simp only [Finset.mem_union]
      constructor
      · rintro ((hc | hm') | ⟨id, hid, hm2, hlk, hin⟩)
        · exact Or.inl hc
        · exact Or.inr ⟨a, by simp, hm, hhm, hm'⟩
        · by_cases hia : id = a
          · subst hia
            simp [POSClient.set_hm, POSHandleManager.clear_modified_handle] at hlk
            subst hlk
            simp at hin
          · refine Or.inr ⟨id, by simp [hid], hm2, ?_, hin⟩
            simpa [POSClient.set_hm, Function.update_noteq hia] using hlk
      · rintro (hc | ⟨id, hid, hm2, hlk, hin⟩)
        · exact Or.inl (Or.inl hc)
        · by_cases hia : id = a
          · subst hia
            rw [hhm] at hlk
            cases hlk
            exact Or.inl (Or.inr hin)
          · have hr : id ∈ rest := by
              rcases List.mem_cons.mp hid with h1 | h1
              · exact absurd h1 hia
              · exact h1
            refine Or.inr ⟨id, hr, hm2, ?_, hin⟩
            simpa [POSClient.set_hm, Function.update_noteq hia] using hlk

theorem mem_modified_union (client : POSClient) (idx : List Nat) (h : Ptr) :
    h ∈ modified_union client idx ↔
      ∃ id ∈ idx, ∃ hm, client.handle_managers id = some hm ∧ h ∈ hm._modified_handles := by
  induction idx with
  | nil => simp [modified_union]
  | cons a rest ih =>
    simp only [modified_union, Finset.mem_union, ih, List.mem_cons]
    constructor
    · rintro (h1 | ⟨id, hid, hm, hlk, hin⟩)
      · cases hlk : client.handle_managers a with
        | none => simp [hlk] at h1
        | some hm => exact ⟨a, Or.inl rfl, hm, hlk, by simpa [hlk] using h1⟩
      · exact ⟨id, Or.inr hid, hm, hlk, hin⟩
    · rintro ⟨id, hid | hid, hm, hlk, hin⟩
      · subst hid
        left
        simpa [hlk] using hin
      · exact Or.inr ⟨id, hid, hm, hlk, hin⟩

/-- The incremental strategy in closed form, when every stateful type has a manager: one
call of `launch_op`, on the graph as it was, with a node tagged with the union of the
modified sets; the listed managers are cleared. -/
theorem incremental_eq (ws : POSWorkspace) (launch_op : LaunchOp) (clients : POSClients)
    (wqe : POSAPIContext_QE) (hpres : managers_present ws (clients wqe.client)) :
    __checkpoint_insertion_incremental ws launch_op clients wqe =
      some ((launch_op (clients wqe.client).dag
              { api_id := ws.checkpoint_api_id, client := wqe.client,
                checkpoint_handles :=
                  modified_union (clients wqe.client) ws.stateful_handle_type_idx }).1,
            Function.update clients wqe.client
              { (clients wqe.client).cleared ws.stateful_handle_type_idx with
                dag := (launch_op (clients wqe.client).dag
                  { api_id := ws.checkpoint_api_id, client := wqe.client,
                    checkpoint_handles :=
                      modified_union (clients wqe.client) ws.stateful_handle_type_idx }).2 }) := by
  obtain ⟨ckpt1, hrun, hapi, hcl, hmem⟩ :=
    incremental_loop_spec ws.stateful_handle_type_idx (clients wqe.client)
      (POSAPIContext_QE.new ws.checkpoint_api_id wqe.client) hpres
  have hnode : ckpt1 = ⟨ws.checkpoint_api_id, wqe.client,
      modified_union (clients wqe.client) ws.stateful_handle_type_idx⟩ := by
    cases ckpt1 with
    | mk a c hs =>
      simp only [POSAPIContext_QE.new] at hapi hcl hmem
      subst hapi
      subst hcl
      congr 1
      ext h
      rw [hmem, mem_modified_union]
      simp
  subst hnode
  simp only [__checkpoint_insertion_incremental, hrun]
  rfl

theorem all_clean_present (ws : POSWorkspace) (client : POSClient) (h : all_clean ws client) :
    managers_present ws client := by
  intro id hid
  have := h id hid
  cases hlk : client.handle_managers id with
  | none => simp [hlk] at this
  | some hm => rfl

theorem all_clean_union (ws : POSWorkspace) (client : POSClient) (h : all_clean ws client) :
    modified_union client ws.stateful_handle_type_idx = ∅ := by
  ext x
  rw [mem_modified_union]
  constructor
  · rintro ⟨id, hid, hm, hlk, hin⟩
    have := h id hid
    simp [hlk, POSHandleManager.get_modified_handles] at this
    rw [this] at hin
    exact hin
  · intro hx
    simp at hx

theorem all_clean_cleared (ws : POSWorkspace) (client : POSClient) (h : all_clean ws client) :
    client.cleared ws.stateful_handle_type_idx = client := by
  cases client with
  | mk hms dag =>
    simp only [POSClient.cleared]
    congr 1
    funext id
    by_cases hid : id ∈ ws.stateful_handle_type_idx
    · have := h id hid
      simp only [hid, if_true]
      cases hlk : hms id with
      | none => rfl
      | some hm =>
        simp [hlk, POSHandleManager.get_modified_handles] at this
        cases hm with
        | mk m =>
          simp at this
          subst this
          rfl
    · simp [hid]

/-- The incremental strategy on a client with nothing modified: `launch_op` is still called
once, with a fresh node that carries no handle, and the managers are left as they were. -/
theorem incremental_clean_eq (ws : POSWorkspace) (launch_op : LaunchOp) (clients : POSClients)
    (wqe : POSAPIContext_QE) (hclean : all_clean ws (clients wqe.client)) :
    __checkpoint_insertion_incremental ws launch_op clients wqe =
      some ((launch_op (clients wqe.client).dag
              (POSAPIContext_QE.new ws.checkpoint_api_id wqe.client)).1,
            Function.update clients wqe.client
              { clients wqe.client with
                dag := (launch_op (clients wqe.client).dag
                  (POSAPIContext_QE.new ws.checkpoint_api_id wqe.client)).2 }) := by
  rw [incremental_eq ws launch_op clients wqe (all_clean_present ws _ hclean),
    all_clean_union ws _ hclean, all_clean_cleared ws _ hclean]
  rfl

theorem checkpoint_insertion_incremental_eq (cfg : POSConfig) (ws : POSWorkspace)
    (launch_op : LaunchOp) (clients : POSClients) (wqe : POSAPIContext_QE)
    (hlevel : cfg.POS_CKPT_OPT_LEVEL > 0) (hinc : cfg.POS_CKPT_ENABLE_INCREMENTAL = 1) :
    checkpoint_insertion cfg ws launch_op clients wqe =
      __checkpoint_insertion_incremental ws launch_op clients wqe := by
  simp [checkpoint_insertion, hlevel, hinc]

theorem checkpoint_insertion_naive_eq (cfg : POSConfig) (ws : POSWorkspace)
    (launch_op : LaunchOp) (clients : POSClients) (wqe : POSAPIContext_QE)
    (hlevel : cfg.POS_CKPT_OPT_LEVEL > 0) (hinc : cfg.POS_CKPT_ENABLE_INCREMENTAL ≠ 1) :
    checkpoint_insertion cfg ws launch_op clients wqe =
      __checkpoint_insertion_naive ws launch_op clients wqe := by
  simp [checkpoint_insertion, hlevel, hinc]

theorem cleared_is_clean (ws : POSWorkspace) (client : POSClient) (dag : POSDag)
    (hpres : managers_present ws client) :
    all_clean ws { client.cleared ws.stateful_handle_type_idx with dag := dag } := by
  intro id hid
  obtain ⟨hm, hhm⟩ := Option.isSome_iff_exists.mp (hpres id hid)
  simp [POSClient.cleared, hid, hhm, POSHandleManager.get_modified_handles,
    POSHandleManager.clear_modified_handle]

/-! ### Claims C1 to C6 -/

/-- C1 (counterexample): in incremental mode, on a client whose stateful managers all have
an empty modified-handle set, `checkpoint_insertion` does call `launch_op`: with the
enqueueing graph the client's operation graph goes from no node to one node, so it is not
unchanged. -/
theorem incremental_clean_no_node_counterexample :
    sample_cfg_incremental.POS_CKPT_OPT_LEVEL > 0 ∧
    sample_cfg_incremental.POS_CKPT_ENABLE_INCREMENTAL = 1 ∧
    all_clean sample_ws (sample_clients_clean sample_wqe.client) ∧
    (sample_clients_clean sample_wqe.client).dag.ops = [] ∧
    ∃ r, checkpoint_insertion sample_cfg_incremental sample_ws POSDag.launch_op
          sample_clients_clean sample_wqe = some r ∧
      (r.2 sample_wqe.client).dag.ops = [POSAPIContext_QE.new 100 1] ∧
      (r.2 sample_wqe.client).dag ≠ (sample_clients_clean sample_wqe.client).dag := by
  refine ⟨by decide, by decide, by decide, rfl, _, rfl, ?_, ?_⟩
  · decide
  · decide

/-- C1 (amended): in incremental mode, when every stateful manager has an empty
modified-handle set, `checkpoint_insertion` still calls `launch_op` once, on the graph as it
was, with a fresh checkpoint node that records no handle, and leaves the managers as they
were; a second call with nothing modified in between hands one more such node to
`launch_op`, on the graph the first call left. -/
theorem incremental_clean_still_enqueues (cfg : POSConfig) (ws : POSWorkspace)
    (launch_op : LaunchOp) (clients : POSClients) (wqe : POSAPIContext_QE)
    (hlevel : cfg.POS_CKPT_OPT_LEVEL > 0) (hinc : cfg.POS_CKPT_ENABLE_INCREMENTAL = 1)
    (hclean : all_clean ws (clients wqe.client)) :
    ∃ first second : pos_retval_t × POSDag,
      first = launch_op (clients wqe.client).dag
        (POSAPIContext_QE.new ws.checkpoint_api_id wqe.client) ∧
      second = launch_op first.2 (POSAPIContext_QE.new ws.checkpoint_api_id wqe.client) ∧
      (POSAPIContext_QE.new ws.checkpoint_api_id wqe.client).checkpoint_handles = ∅ ∧
      checkpoint_insertion cfg ws launch_op clients wqe =
        some (first.1,
          Function.update clients wqe.client { clients wqe.client with dag := first.2 }) ∧
      checkpoint_insertion cfg ws launch_op
          (Function.update clients wqe.client { clients wqe.client with dag := first.2 }) wqe =
        some (second.1,
          Function.update clients wqe.client { clients wqe.client with dag := second.2 }) := by
  refine ⟨_, _, rfl, rfl, rfl, ?_, ?_⟩
  · rw [checkpoint_insertion_incremental_eq cfg ws launch_op clients wqe hlevel hinc]
    exact incremental_clean_eq ws launch_op clients wqe hclean
  · rw [checkpoint_insertion_incremental_eq cfg ws launch_op _ wqe hlevel hinc]
    have hclean1 : all_clean ws
        ((Function.update clients wqe.client
          { clients wqe.client with
            dag := (launch_op (clients wqe.client).dag
              (POSAPIContext_QE.new ws.checkpoint_api_id wqe.client)).2 }) wqe.client) := by
      rw [Function.update_same]
      exact hclean
    rw [incremental_clean_eq ws launch_op _ wqe hclean1]
    simp [Function.update_same]

/-- C1 (witness): the clean sample client under the incremental strategy. -/
theorem incremental_clean_still_enqueues_witness :
    (sample_cfg_incremental.POS_CKPT_OPT_LEVEL > 0 ∧
      sample_cfg_incremental.POS_CKPT_ENABLE_INCREMENTAL = 1 ∧
      all_clean sample_ws (sample_clients_clean sample_wqe.client)) ∧
    ∃ first second : pos_retval_t × POSDag,
      first = POSDag.launch_op (sample_clients_clean sample_wqe.client).dag
        (POSAPIContext_QE.new sample_ws.checkpoint_api_id sample_wqe.client) ∧
      second = POSDag.launch_op first.2
        (POSAPIContext_QE.new sample_ws.checkpoint_api_id sample_wqe.client) ∧
      (POSAPIContext_QE.new sample_ws.checkpoint_api_id sample_wqe.client).checkpoint_handles
        = ∅ ∧
      checkpoint_insertion sample_cfg_incremental sample_ws POSDag.launch_op
          sample_clients_clean sample_wqe =
        some (first.1,
          Function.update sample_clients_clean sample_wqe.client
            { sample_clients_clean sample_wqe.client with dag := first.2 }) ∧
      checkpoint_insertion sample_cfg_incremental sample_ws POSDag.launch_op
          (Function.update sample_clients_clean sample_wqe.client
            { sample_clients_clean sample_wqe.client with dag := first.2 }) sample_wqe =
        some (second.1,
          Function.update sample_clients_clean sample_wqe.client
            { sample_clients_clean sample_wqe.client with dag := second.2 }) :=
  ⟨⟨by decide, by decide, by decide⟩,
    incremental_clean_still_enqueues sample_cfg_incremental sample_ws POSDag.launch_op
      sample_clients_clean sample_wqe (by decide) (by decide) (by decide)⟩

/-- C2: in incremental mode the node that `checkpoint_insertion` hands to `launch_op`
(whatever the graph executor is) carries the checkpoint api id and the client of the queued
operation, and its recorded handle set is exactly the union of the modified-handle sets of
the stateful managers as they were before the call: a handle is recorded if and only if it
was modified in some stateful manager.  When exactly one handle is modified, the recorded
set is that single handle. -/
theorem incremental_records_modified_union (cfg : POSConfig) (ws : POSWorkspace)
    (clients : POSClients) (wqe : POSAPIContext_QE)
    (hlevel : cfg.POS_CKPT_OPT_LEVEL > 0) (hinc : cfg.POS_CKPT_ENABLE_INCREMENTAL = 1)
    (hpres : managers_present ws (clients wqe.client)) :
    ∃ node : POSAPIContext_QE,
      (∀ launch_op : LaunchOp, ∃ clients1,
        checkpoint_insertion cfg ws launch_op clients wqe =
          some ((launch_op (clients wqe.client).dag node).1, clients1) ∧
        (clients1 wqe.client).dag = (launch_op (clients wqe.client).dag node).2) ∧
      node.api_id = ws.checkpoint_api_id ∧ node.client = wqe.client ∧
      node.checkpoint_handles =
        modified_union (clients wqe.client) ws.stateful_handle_type_idx ∧
      (∀ h, h ∈ node.checkpoint_handles ↔ modified_somewhere ws (clients wqe.client) h) ∧
      (∀ h, (∀ x, modified_somewhere ws (clients wqe.client) x ↔ x = h) →
        node.checkpoint_handles = {h}) := by
  have hmem : ∀ h, h ∈ modified_union (clients wqe.client) ws.stateful_handle_type_idx ↔
      modified_somewhere ws (clients wqe.client) h := fun h =>
    mem_modified_union (clients wqe.client) ws.stateful_handle_type_idx h
  refine ⟨⟨ws.checkpoint_api_id, wqe.client,
    modified_union (clients wqe.client) ws.stateful_handle_type_idx⟩, ?_, rfl, rfl, rfl,
    hmem, ?_⟩
  · intro launch_op
    have hrun := incremental_eq ws launch_op clients wqe hpres
    rw [← checkpoint_insertion_incremental_eq cfg ws launch_op clients wqe hlevel hinc] at hrun
    refine ⟨_, hrun, ?_⟩
    simp [Function.update_same]
  · intro h hone
    ext x
    rw [hmem x, hone x]
    simp

/-- C2 (witness): the dirty sample client; handles 7 and 9 of type 3 and handle 8 of type 4
end up on the enqueued node. -/
theorem incremental_records_modified_union_witness :
    (sample_cfg_incremental.POS_CKPT_OPT_LEVEL > 0 ∧
      sample_cfg_incremental.POS_CKPT_ENABLE_INCREMENTAL = 1 ∧
      managers_present sample_ws (sample_clients_dirty sample_wqe.client)) ∧
    ∃ node : POSAPIContext_QE,
      (∀ launch_op : LaunchOp, ∃ clients1,
        checkpoint_insertion sample_cfg_incremental sample_ws launch_op sample_clients_dirty
            sample_wqe =
          some ((launch_op (sample_clients_dirty sample_wqe.client).dag node).1, clients1) ∧
        (clients1 sample_wqe.client).dag =
          (launch_op (sample_clients_dirty sample_wqe.client).dag node).2) ∧
      node.api_id = sample_ws.checkpoint_api_id ∧ node.client = sample_wqe.client ∧
      node.checkpoint_handles =
        modified_union (sample_clients_dirty sample_wqe.client)
          sample_ws.stateful_handle_type_idx ∧
      (∀ h, h ∈ node.checkpoint_handles ↔
        modified_somewhere sample_ws (sample_clients_dirty sample_wqe.client) h) ∧
      (∀ h, (∀ x, modified_somewhere sample_ws (sample_clients_dirty sample_wqe.client) x ↔
          x = h) → node.checkpoint_handles = {h}) :=
  ⟨⟨by decide, by decide, by decide⟩,
    incremental_records_modified_union sample_cfg_incremental sample_ws sample_clients_dirty
      sample_wqe (by decide) (by decide) (by decide)⟩

/-- C3: in incremental mode, whatever the graph executor does, after `checkpoint_insertion`
the manager of every type in `stateful_handle_type_idx` has an empty modified-handle set,
whether or not it was empty before. -/
theorem incremental_clears_modified_sets (cfg : POSConfig) (ws : POSWorkspace)
    (launch_op : LaunchOp) (clients : POSClients) (wqe : POSAPIContext_QE)
    (hlevel : cfg.POS_CKPT_OPT_LEVEL > 0) (hinc : cfg.POS_CKPT_ENABLE_INCREMENTAL = 1)
    (hpres : managers_present ws (clients wqe.client)) :
    ∃ r, checkpoint_insertion cfg ws launch_op clients wqe = some r ∧
      ∀ id ∈ ws.stateful_handle_type_idx, ∃ hm,
        pos_get_client_typed_hm (r.2 wqe.client) id = some hm ∧
        hm.get_modified_handles = ∅ := by
  have hrun := incremental_eq ws launch_op clients wqe hpres
  rw [← checkpoint_insertion_incremental_eq cfg ws launch_op clients wqe hlevel hinc] at hrun
  refine ⟨_, hrun, ?_⟩
  intro id hid
  obtain ⟨hm, hhm⟩ := Option.isSome_iff_exists.mp (hpres id hid)
  refine ⟨hm.clear_modified_handle, ?_, rfl⟩
  simp [pos_get_client_typed_hm, Function.update_same, POSClient.cleared, hid, hhm]

/-- C3 (witness): the dirty sample client, with a graph executor that refuses the node. -/
theorem incremental_clears_modified_sets_witness :
    (sample_cfg_incremental.POS_CKPT_OPT_LEVEL > 0 ∧
      sample_cfg_incremental.POS_CKPT_ENABLE_INCREMENTAL = 1 ∧
      managers_present sample_ws (sample_clients_dirty sample_wqe.client)) ∧
    ∃ r, checkpoint_insertion sample_cfg_incremental sample_ws sample_launch_op_failing
          sample_clients_dirty sample_wqe = some r ∧
      ∀ id ∈ sample_ws.stateful_handle_type_idx, ∃ hm,
        pos_get_client_typed_hm (r.2 sample_wqe.client) id = some hm ∧
        hm.get_modified_handles = ∅ :=
  ⟨⟨by decide, by decide, by decide⟩,
    incremental_clears_modified_sets sample_cfg_incremental sample_ws
      sample_launch_op_failing sample_clients_dirty sample_wqe
      (by decide) (by decide) (by decide)⟩

/-- C4: in naive mode `checkpoint_insertion` calls `launch_op` once, on the graph of the
queued operation's client as it was, with a fresh node that has the workspace's checkpoint
api id, the client of the queued operation and an empty recorded handle set, whatever the
modified-handle sets hold.  The status returned is the one `launch_op` answered, the graph
is the one `launch_op` answered, every manager of every client is left as it was, and so is
every other client. -/
theorem naive_launches_one_plain_node (cfg : POSConfig) (ws : POSWorkspace)
    (launch_op : LaunchOp) (clients : POSClients) (wqe : POSAPIContext_QE)
    (hlevel : cfg.POS_CKPT_OPT_LEVEL > 0) (hinc : cfg.POS_CKPT_ENABLE_INCREMENTAL ≠ 1) :
    ∃ (node : POSAPIContext_QE) (r : pos_retval_t × POSClients),
      node.api_id = ws.checkpoint_api_id ∧ node.client = wqe.client ∧
      node.checkpoint_handles = ∅ ∧
      checkpoint_insertion cfg ws launch_op clients wqe = some r ∧
      r.1 = (launch_op (clients wqe.client).dag node).1 ∧
      (r.2 wqe.client).dag = (launch_op (clients wqe.client).dag node).2 ∧
      (∀ c, (r.2 c).handle_managers = (clients c).handle_managers) ∧
      (∀ c, c ≠ wqe.client → r.2 c = clients c) := by
  have hrun : checkpoint_insertion cfg ws launch_op clients wqe =
      some ((launch_op (clients wqe.client).dag
              (POSAPIContext_QE.new ws.checkpoint_api_id wqe.client)).1,
            Function.update clients wqe.client
              { clients wqe.client with
                dag := (launch_op (clients wqe.client).dag
                  (POSAPIContext_QE.new ws.checkpoint_api_id wqe.client)).2 }) := by
    rw [checkpoint_insertion_naive_eq cfg ws launch_op clients wqe hlevel hinc]
    rfl
  refine ⟨POSAPIContext_QE.new ws.checkpoint_api_id wqe.client, _, rfl, rfl, rfl, hrun, rfl,
    ?_, ?_, ?_⟩
  · simp [Function.update_same]
  · intro c
    by_cases hc : c = wqe.client
    · subst hc
      simp [Function.update_same]
    · simp [Function.update_noteq hc]
  · intro c hc
    simp [Function.update_noteq hc]

/-- C4 (witness): the dirty sample client under the naive strategy. -/
theorem naive_launches_one_plain_node_witness :
    (sample_cfg_naive.POS_CKPT_OPT_LEVEL > 0 ∧
      sample_cfg_naive.POS_CKPT_ENABLE_INCREMENTAL ≠ 1) ∧
    ∃ (node : POSAPIContext_QE) (r : pos_retval_t × POSClients),
      node.api_id = sample_ws.checkpoint_api_id ∧ node.client = sample_wqe.client ∧
      node.checkpoint_handles = ∅ ∧
      checkpoint_insertion sample_cfg_naive sample_ws POSDag.launch_op sample_clients_dirty
        sample_wqe = some r ∧
      r.1 = (POSDag.launch_op (sample_clients_dirty sample_wqe.client).dag node).1 ∧
      (r.2 sample_wqe.client).dag =
        (POSDag.launch_op (sample_clients_dirty sample_wqe.client).dag node).2 ∧
      (∀ c, (r.2 c).handle_managers = (sample_clients_dirty c).handle_managers) ∧
      (∀ c, c ≠ sample_wqe.client → r.2 c = sample_clients_dirty c) :=
  ⟨⟨by decide, by decide⟩,
    naive_launches_one_plain_node sample_cfg_naive sample_ws POSDag.launch_op
      sample_clients_dirty sample_wqe (by decide) (by decide)⟩

/-- C5: with `POS_CKPT_OPT_LEVEL` equal to 0, whatever `POS_CKPT_ENABLE_INCREMENTAL` is and
whatever the graph executor is, `checkpoint_insertion` returns `POS_SUCCESS` and leaves
every client, its operation graph and modified-handle sets included, as it was. -/
theorem disabled_changes_nothing (cfg : POSConfig) (ws : POSWorkspace)
    (launch_op : LaunchOp) (clients : POSClients) (wqe : POSAPIContext_QE)
    (hlevel : cfg.POS_CKPT_OPT_LEVEL = 0) :
    checkpoint_insertion cfg ws launch_op clients wqe = some (POS_SUCCESS, clients) := by
  simp [checkpoint_insertion, hlevel]

/-- C5 (witness): the dirty sample client with checkpointing disabled. -/
theorem disabled_changes_nothing_witness :
    sample_cfg_disabled.POS_CKPT_OPT_LEVEL = 0 ∧
    checkpoint_insertion sample_cfg_disabled sample_ws POSDag.launch_op sample_clients_dirty
      sample_wqe = some (POS_SUCCESS, sample_clients_dirty) :=
  ⟨by decide,
    disabled_changes_nothing sample_cfg_disabled sample_ws POSDag.launch_op
      sample_clients_dirty sample_wqe (by decide)⟩

/-- C6: with the graph executor of the operation-graph API, which enqueues the node it is
handed, for every strategy (naive, incremental, disabled) and every queued operation one
call of `checkpoint_insertion` returns `POS_SUCCESS`, leaves every other client as it was,
and leaves the graph of the queued operation's client either as it was or with exactly one
more node at its end, a checkpoint node of that same client.  (In incremental mode every
stateful type is taken to have a manager.) -/
theorem checkpoint_insertion_zero_or_one_node (cfg : POSConfig) (ws : POSWorkspace)
    (clients : POSClients) (wqe : POSAPIContext_QE)
    (hpres : cfg.POS_CKPT_OPT_LEVEL > 0 → cfg.POS_CKPT_ENABLE_INCREMENTAL = 1 →
      managers_present ws (clients wqe.client)) :
    ∃ clients1, checkpoint_insertion cfg ws POSDag.launch_op clients wqe
        = some (POS_SUCCESS, clients1) ∧
      (∀ c, c ≠ wqe.client → clients1 c = clients c) ∧
      ((clients1 wqe.client).dag.ops = (clients wqe.client).dag.ops ∨
        ∃ node : POSAPIContext_QE, node.client = wqe.client ∧
          node.api_id = ws.checkpoint_api_id ∧
          (clients1 wqe.client).dag.ops = (clients wqe.client).dag.ops ++ [node]) := by
  by_cases hlevel : cfg.POS_CKPT_OPT_LEVEL > 0
  · by_cases hinc : cfg.POS_CKPT_ENABLE_INCREMENTAL = 1
    · have hrun := incremental_eq ws POSDag.launch_op clients wqe (hpres hlevel hinc)
      rw [← checkpoint_insertion_incremental_eq cfg ws _ clients wqe hlevel hinc] at hrun
      refine ⟨_, hrun, ?_, Or.inr ⟨⟨ws.checkpoint_api_id, wqe.client,
        modified_union (clients wqe.client) ws.stateful_handle_type_idx⟩, rfl, rfl, ?_⟩⟩
      · intro c hc
        simp [Function.update_noteq hc]
      · simp [Function.update_same, POSDag.launch_op, POSClient.cleared]
    · have hrun : checkpoint_insertion cfg ws POSDag.launch_op clients wqe =
          some (POS_SUCCESS, Function.update clients wqe.client
            { clients wqe.client with
              dag := { ops := (clients wqe.client).dag.ops ++
                [POSAPIContext_QE.new ws.checkpoint_api_id wqe.client] } }) := by
        rw [checkpoint_insertion_naive_eq cfg ws _ clients wqe hlevel hinc]
        rfl
      refine ⟨_, hrun, ?_, Or.inr ⟨POSAPIContext_QE.new ws.checkpoint_api_id wqe.client,
        rfl, rfl, ?_⟩⟩
      · intro c hc
        simp [Function.update_noteq hc]
      · simp [Function.update_same]
  · refine ⟨clients, ?_, fun _ _ => rfl, Or.inl rfl⟩
    simp [checkpoint_insertion, hlevel]

/-- C6 (witness): the dirty sample client under each of the three strategies. -/
theorem checkpoint_insertion_zero_or_one_node_witness :
    (managers_present sample_ws (sample_clients_dirty sample_wqe.client) ∧
      ∃ clients1, checkpoint_insertion sample_cfg_incremental sample_ws POSDag.launch_op
          sample_clients_dirty sample_wqe = some (POS_SUCCESS, clients1) ∧
        (∀ c, c ≠ sample_wqe.client → clients1 c = sample_clients_dirty c) ∧
        ((clients1 sample_wqe.client).dag.ops
            = (sample_clients_dirty sample_wqe.client).dag.ops ∨
          ∃ node : POSAPIContext_QE, node.client = sample_wqe.client ∧
            node.api_id = sample_ws.checkpoint_api_id ∧
            (clients1 sample_wqe.client).dag.ops =
              (sample_clients_dirty sample_wqe.client).dag.ops ++ [node])) ∧
    (∃ clients1, checkpoint_insertion sample_cfg_naive sample_ws POSDag.launch_op
          sample_clients_dirty sample_wqe = some (POS_SUCCESS, clients1) ∧
        (∀ c, c ≠ sample_wqe.client → clients1 c = sample_clients_dirty c) ∧
        ((clients1 sample_wqe.client).dag.ops
            = (sample_clients_dirty sample_wqe.client).dag.ops ∨
          ∃ node : POSAPIContext_QE, node.client = sample_wqe.client ∧
            node.api_id = sample_ws.checkpoint_api_id ∧
            (clients1 sample_wqe.client).dag.ops =
              (sample_clients_dirty sample_wqe.client).dag.ops ++ [node])) ∧
    (∃ clients1, checkpoint_insertion sample_cfg_disabled sample_ws POSDag.launch_op
          sample_clients_dirty sample_wqe = some (POS_SUCCESS, clients1) ∧
        (∀ c, c ≠ sample_wqe.client → clients1 c = sample_clients_dirty c) ∧
        ((clients1 sample_wqe.client).dag.ops
            = (sample_clients_dirty sample_wqe.client).dag.ops ∨
          ∃ node : POSAPIContext_QE, node.client = sample_wqe.client ∧
            node.api_id = sample_ws.checkpoint_api_id ∧
            (clients1 sample_wqe.client).dag.ops =
              (sample_clients_dirty sample_wqe.client).dag.ops ++ [node])) :=
  ⟨⟨by decide,
      checkpoint_insertion_zero_or_one_node sample_cfg_incremental sample_ws
        sample_clients_dirty sample_wqe (fun _ _ => by decide)⟩,
    checkpoint_insertion_zero_or_one_node sample_cfg_naive sample_ws
      sample_clients_dirty sample_wqe (fun _ h => absurd h (by decide)),
    checkpoint_insertion_zero_or_one_node sample_cfg_disabled sample_ws
      sample_clients_dirty sample_wqe (fun h => absurd h (by decide))⟩

/-- The three strategies on the dirty sample client, with the enqueueing graph executor:
incremental and naive mode return `POS_SUCCESS` with one node in the graph (tagged with the
modified handles 7, 9 and 8, and with none), disabled mode returns `POS_SUCCESS` with the graph
still empty. -/
theorem checkpoint_insertion_strategies_example :
    (∃ r, checkpoint_insertion sample_cfg_incremental sample_ws POSDag.launch_op
          sample_clients_dirty sample_wqe = some r ∧ r.1 = POS_SUCCESS ∧
        (r.2 1).dag.ops =
          [{ api_id := 100, client := 1, checkpoint_handles := ∅ ∪ {7, 9} ∪ {8} }]) ∧
    (∃ r, checkpoint_insertion sample_cfg_naive sample_ws POSDag.launch_op
          sample_clients_dirty sample_wqe = some r ∧ r.1 = POS_SUCCESS ∧
        (r.2 1).dag.ops = [{ api_id := 100, client := 1, checkpoint_handles := ∅ }]) ∧
    (∃ r, checkpoint_insertion sample_cfg_disabled sample_ws POSDag.launch_op
          sample_clients_dirty sample_wqe = some r ∧ r.1 = POS_SUCCESS ∧
        (r.2 1).dag.ops = []) :=
  ⟨⟨_, rfl, rfl, rfl⟩, ⟨_, rfl, rfl, by decide⟩, ⟨_, rfl, rfl, by decide⟩⟩

/-- With exactly one modified handle, handle 7 of type 4, the enqueued node records exactly
that handle and both stateful managers are empty afterwards. -/
theorem incremental_single_example :
    ∃ r, checkpoint_insertion sample_cfg_incremental sample_ws POSDag.launch_op
          sample_clients_single sample_wqe = some r ∧
      r.1 = POS_SUCCESS ∧
      (r.2 1).dag.ops = [{ api_id := 100, client := 1, checkpoint_handles := {7} }] ∧
      (r.2 1).handle_managers 3 = some { _modified_handles := ∅ } ∧
      (r.2 1).handle_managers 4 = some { _modified_handles := ∅ } :=
  ⟨_, rfl, rfl, by decide, by decide, by decide⟩

/-! ## Theorems: module allocation and extra serialization -/

/-- The parent set of a handle after `record_parent_handle`: the parent is added. -/
theorem record_parent_handle_parents (heap : POSHeap) (self parent : Ptr) :
    (POSHandle.record_parent_handle heap self parent self).parent_handles
      = insert parent (heap self).parent_handles := by
  unfold POSHandle.record_parent_handle
  by_cases hsp : self = parent
  · subst hsp
    simp [Function.update_same]
  · simp [Function.update_noteq hsp, Function.update_same]

/-- The child set of the parent after `record_parent_handle`: the handle is added. -/
theorem record_parent_handle_children (heap : POSHeap) (self parent : Ptr) :
    self ∈ (POSHandle.record_parent_handle heap self parent parent).child_handles := by
  unfold POSHandle.record_parent_handle
  simp [Function.update_same]

/-- The module allocation when the context entry holds at least one handle and the first is
not null: the debug check passes and the call goes on to the base-class allocator. -/
theorem allocate_mocked_resource_with_context (cfg : POSConfig) (alloc : AllocateMocked)
    (hm : POSHandleManager_CUDA_Module) (heap : POSHeap) (handle : Ptr)
    (related_handles : RelatedHandles) (size : Nat) (use_expected_addr : Bool)
    (expected_addr state_size : Nat) (c : Ptr) (rest : List Ptr)
    (hctx : related_handles.lookup cfg.kPOS_ResourceTypeId_CUDA_Context = some (c :: rest))
    (hc : c ≠ nullptr) :
    POSHandleManager_CUDA_Module.allocate_mocked_resource cfg alloc hm heap handle
        related_handles size use_expected_addr expected_addr state_size =
      if (alloc hm heap handle size use_expected_addr expected_addr state_size).1 ≠ POS_SUCCESS
      then some (alloc hm heap handle size use_expected_addr expected_addr state_size)
      else if (alloc hm heap handle size use_expected_addr expected_addr state_size).2.2.2
          = nullptr then none
      else some
        ((alloc hm heap handle size use_expected_addr expected_addr state_size).1,
          (alloc hm heap handle size use_expected_addr expected_addr state_size).2.1,
          POSHandle.record_parent_handle
            (alloc hm heap handle size use_expected_addr expected_addr state_size).2.2.1
            (alloc hm heap handle size use_expected_addr expected_addr state_size).2.2.2 c,
          (alloc hm heap handle size use_expected_addr expected_addr state_size).2.2.2) := by
  simp [POSHandleManager_CUDA_Module.allocate_mocked_resource, hctx, hc]

/-- With the debug check compiled in, a `related_handles` map without a context entry is
refused before anything is indexed or allocated. -/
theorem allocate_mocked_resource_no_context (cfg : POSConfig) (alloc : AllocateMocked)
    (hm : POSHandleManager_CUDA_Module) (heap : POSHeap) (handle : Ptr)
    (related_handles : RelatedHandles) (size : Nat) (use_expected_addr : Bool)
    (expected_addr state_size : Nat)
    (hdbg : cfg.POS_CONF_RUNTIME_EnableDebugCheck = true)
    (habsent : related_handles.lookup cfg.kPOS_ResourceTypeId_CUDA_Context = none) :
    POSHandleManager_CUDA_Module.allocate_mocked_resource cfg alloc hm heap handle
        related_handles size use_expected_addr expected_addr state_size =
      some (POS_FAILED_INVALID_INPUT, hm, heap, handle) := by
  simp [POSHandleManager_CUDA_Module.allocate_mocked_resource, hdbg, habsent]

/-- A context entry that holds an empty list passes the debug check, and the unchecked
`[0]` then reads past the end of the list: the run has no result. -/
theorem allocate_mocked_resource_empty_context_list :
    POSHandleManager_CUDA_Module.allocate_mocked_resource sample_cfg_incremental
        (sample_allocate 40 100) sample_hm sample_heap 0 [(2, [])] 8 false 0 0 = none := by
  rfl

/-! ### Claims C7 to C10 -/

/-- C7 (counterexample): with the debug check compiled in, a `related_handles` map whose
context entry holds two handles is not refused: the call succeeds, with the first of the two
as context handle, instead of returning `POS_FAILED_INVALID_INPUT`. -/
theorem allocate_two_contexts_counterexample :
    sample_cfg_incremental.POS_CONF_RUNTIME_EnableDebugCheck = true ∧
    sample_related_two.lookup sample_cfg_incremental.kPOS_ResourceTypeId_CUDA_Context
      = some [5, 6] ∧
    ∃ r, POSHandleManager_CUDA_Module.allocate_mocked_resource sample_cfg_incremental
          (sample_allocate 40 100) sample_hm sample_heap 0 sample_related_two 8 false 0 0
        = some r ∧
      r.1 = POS_SUCCESS ∧ r.1 ≠ POS_FAILED_INVALID_INPUT ∧
      (r.2.2.1 r.2.2.2).parent_handles = {5} :=
  ⟨rfl, rfl, _, rfl, rfl, by decide, by decide⟩

/-- C7 (amended): with `POS_CONF_RUNTIME_EnableDebugCheck` compiled in, a `related_handles`
map with no entry under `kPOS_ResourceTypeId_CUDA_Context` makes the call return
`POS_FAILED_INVALID_INPUT` with manager, handle store and output slot untouched.  When the
entry holds one or more handles and the first is not null, that first handle is the context
handle, a longer list is not refused, and the call returns what the base-class allocator
returns: its failure as it is, or success with the context handle recorded as parent of the
new handle. -/
theorem allocate_mocked_resource_context_check (cfg : POSConfig) (alloc : AllocateMocked)
    (hm : POSHandleManager_CUDA_Module) (heap : POSHeap) (handle : Ptr)
    (related_handles : RelatedHandles) (size : Nat) (use_expected_addr : Bool)
    (expected_addr state_size : Nat) :
    (cfg.POS_CONF_RUNTIME_EnableDebugCheck = true →
      related_handles.lookup cfg.kPOS_ResourceTypeId_CUDA_Context = none →
      POSHandleManager_CUDA_Module.allocate_mocked_resource cfg alloc hm heap handle
          related_handles size use_expected_addr expected_addr state_size =
        some (POS_FAILED_INVALID_INPUT, hm, heap, handle)) ∧
    (∀ c rest,
      related_handles.lookup cfg.kPOS_ResourceTypeId_CUDA_Context = some (c :: rest) →
      c ≠ nullptr →
      ((alloc hm heap handle size use_expected_addr expected_addr state_size).1 ≠ POS_SUCCESS →
        POSHandleManager_CUDA_Module.allocate_mocked_resource cfg alloc hm heap handle
            related_handles size use_expected_addr expected_addr state_size =
          some (alloc hm heap handle size use_expected_addr expected_addr state_size)) ∧
      (∀ hm1 heap1 h1,
        alloc hm heap handle size use_expected_addr expected_addr state_size
          = (POS_SUCCESS, hm1, heap1, h1) →
        h1 ≠ nullptr →
        POSHandleManager_CUDA_Module.allocate_mocked_resource cfg alloc hm heap handle
            related_handles size use_expected_addr expected_addr state_size =
          some (POS_SUCCESS, hm1, POSHandle.record_parent_handle heap1 h1 c, h1))) := by
  refine ⟨fun hdbg habsent => allocate_mocked_resource_no_context cfg alloc hm heap handle
    related_handles size use_expected_addr expected_addr state_size hdbg habsent, ?_⟩
  intro c rest hctx hc
  have hrun := allocate_mocked_resource_with_context cfg alloc hm heap handle related_handles
    size use_expected_addr expected_addr state_size c rest hctx hc
  refine ⟨fun hfail => ?_, fun hm1 heap1 h1 hok hh1 => ?_⟩
  · rw [hrun, if_pos hfail]
  · rw [hrun, hok]
    simp [hh1]

/-- C7 (witness): no context entry at all, and a context entry with two handles. -/
theorem allocate_mocked_resource_context_check_witness :
    POSHandleManager_CUDA_Module.allocate_mocked_resource sample_cfg_incremental
        (sample_allocate 40 100) sample_hm sample_heap 0 [(9, [7])] 8 false 0 0 =
      some (POS_FAILED_INVALID_INPUT, sample_hm, sample_heap, 0) ∧
    POSHandleManager_CUDA_Module.allocate_mocked_resource sample_cfg_incremental
        (sample_allocate 40 100) sample_hm sample_heap 0 sample_related_two 8 false 0 0 =
      some (POS_SUCCESS, { sample_hm with _handles := [40] },
        POSHandle.record_parent_handle
          (Function.update sample_heap 40
            { client_addr := 40, size := 8, id := 0, state_size := 0,
              parent_handles := ∅, child_handles := ∅ }) 40 5, 40) :=
  ⟨(allocate_mocked_resource_context_check sample_cfg_incremental (sample_allocate 40 100)
      sample_hm sample_heap 0 [(9, [7])] 8 false 0 0).1 rfl rfl,
    ((allocate_mocked_resource_context_check sample_cfg_incremental (sample_allocate 40 100)
      sample_hm sample_heap 0 sample_related_two 8 false 0 0).2 5 [6] rfl (by decide)).2
        _ _ _ rfl (by decide)⟩

/-- C8 (counterexample): a successful call whose `related_handles` map holds a context
handle and a handle of another type: the parent set of the new handle is the context handle
alone, not the set of related handles supplied. -/
theorem allocate_parent_set_counterexample :
    sample_related_mixed.all_handles = {5, 7} ∧
    ∃ r, POSHandleManager_CUDA_Module.allocate_mocked_resource sample_cfg_incremental
          (sample_allocate 40 100) sample_hm sample_heap 0 sample_related_mixed 8 false 0 0
        = some r ∧
      r.1 = POS_SUCCESS ∧
      (r.2.2.1 r.2.2.2).parent_handles = {5} ∧
      (r.2.2.1 r.2.2.2).parent_handles ≠ sample_related_mixed.all_handles :=
  ⟨by decide, _, rfl, rfl, by decide, by decide⟩

/-- C8 (amended): for every successful call the context entry of `related_handles` is not
empty, the base-class allocator was run with the same `size`, `use_expected_addr`,
`expected_addr` and `state_size` and succeeded, the returned handle is the one it produced,
and the only change made on top of the allocator's is the parent/child relation between the
new handle and the first context handle: that context handle is added to the parent set of
the new handle, so the parent set is exactly that one handle when the allocator produced a
handle without parents.  Further context handles and related handles of other types are not
recorded; the parent set equals the related handles supplied when these are just the one
context handle. -/
theorem allocate_mocked_resource_success (cfg : POSConfig) (alloc : AllocateMocked)
    (hm : POSHandleManager_CUDA_Module) (heap : POSHeap) (handle : Ptr)
    (related_handles : RelatedHandles) (size : Nat) (use_expected_addr : Bool)
    (expected_addr state_size : Nat)
    (hm1 : POSHandleManager_CUDA_Module) (heap2 : POSHeap) (h1 : Ptr)
    (hres : POSHandleManager_CUDA_Module.allocate_mocked_resource cfg alloc hm heap handle
        related_handles size use_expected_addr expected_addr state_size
      = some (POS_SUCCESS, hm1, heap2, h1)) :
    ∃ c rest heap1,
      related_handles.lookup cfg.kPOS_ResourceTypeId_CUDA_Context = some (c :: rest) ∧
      alloc hm heap handle size use_expected_addr expected_addr state_size
        = (POS_SUCCESS, hm1, heap1, h1) ∧
      heap2 = POSHandle.record_parent_handle heap1 h1 c ∧
      (heap2 h1).parent_handles = insert c (heap1 h1).parent_handles ∧
      h1 ∈ (heap2 c).child_handles ∧
      ((heap1 h1).parent_handles = ∅ → (heap2 h1).parent_handles = {c}) ∧
      ((heap1 h1).parent_handles = ∅ → related_handles.all_handles = {c} →
        (heap2 h1).parent_handles = related_handles.all_handles) := by
  cases hlk : related_handles.lookup cfg.kPOS_ResourceTypeId_CUDA_Context with
  | none =>
    by_cases hdbg : cfg.POS_CONF_RUNTIME_EnableDebugCheck = true <;>
      simp [POSHandleManager_CUDA_Module.allocate_mocked_resource, hlk, hdbg] at hres
  | some l =>
    cases l with
    | nil => simp [POSHandleManager_CUDA_Module.allocate_mocked_resource, hlk] at hres
    | cons c rest =>
      by_cases hc : c = nullptr
      · simp [POSHandleManager_CUDA_Module.allocate_mocked_resource, hlk, hc] at hres
      · rw [allocate_mocked_resource_with_context cfg alloc hm heap handle related_handles
          size use_expected_addr expected_addr state_size c rest hlk hc] at hres
        by_cases hfail :
            (alloc hm heap handle size use_expected_addr expected_addr state_size).1
              ≠ POS_SUCCESS
        · rw [if_pos hfail] at hres
          have h := Option.some.inj hres
          rw [h] at hfail
          exact absurd rfl hfail
        · rw [if_neg hfail] at hres
          by_cases hnull :
              (alloc hm heap handle size use_expected_addr expected_addr state_size).2.2.2
                = nullptr
          · rw [if_pos hnull] at hres
            exact absurd hres (by simp)
          · rw [if_neg hnull] at hres
            have h := Option.some.inj hres
            simp only [Prod.mk.injEq] at h
            obtain ⟨hst, hhm, hheap, hh⟩ := h
            have hpar : (heap2 h1).parent_handles =
                insert c ((alloc hm heap handle size use_expected_addr expected_addr
                  state_size).2.2.1 h1).parent_handles := by
              rw [← hheap, hh]
              exact record_parent_handle_parents _ h1 c
            refine ⟨c, rest,
              (alloc hm heap handle size use_expected_addr expected_addr state_size).2.2.1,
              rfl, ?_, ?_, hpar, ?_, ?_, ?_⟩
            · rw [← hst, ← hhm, ← hh]
            · rw [← hheap, hh]
            · rw [← hheap, hh]
              exact record_parent_handle_children _ h1 c
            · intro hfresh
              rw [hpar, hfresh]
              rfl
            · intro hfresh hall
              rw [hpar, hfresh, hall]
              rfl

/-- C8 (witness): one context handle, at address 5, and room in the address space. -/
theorem allocate_mocked_resource_success_witness :
    POSHandleManager_CUDA_Module.allocate_mocked_resource sample_cfg_incremental
        (sample_allocate 40 100) sample_hm sample_heap 0 sample_related_one 8 false 0 0
      = some (POS_SUCCESS, { sample_hm with _handles := [40] },
          POSHandle.record_parent_handle
            (Function.update sample_heap 40
              { client_addr := 40, size := 8, id := 0, state_size := 0,
                parent_handles := ∅, child_handles := ∅ }) 40 5, 40) ∧
    ∃ c rest heap1,
      sample_related_one.lookup sample_cfg_incremental.kPOS_ResourceTypeId_CUDA_Context
        = some (c :: rest) ∧
      sample_allocate 40 100 sample_hm sample_heap 0 8 false 0 0
        = (POS_SUCCESS, { sample_hm with _handles := [40] }, heap1, 40) ∧
      POSHandle.record_parent_handle
          (Function.update sample_heap 40
            { client_addr := 40, size := 8, id := 0, state_size := 0,
              parent_handles := ∅, child_handles := ∅ }) 40 5
        = POSHandle.record_parent_handle heap1 40 c ∧
      (POSHandle.record_parent_handle
          (Function.update sample_heap 40
            { client_addr := 40, size := 8, id := 0, state_size := 0,
              parent_handles := ∅, child_handles := ∅ }) 40 5 40).parent_handles
        = insert c (heap1 40).parent_handles ∧
      40 ∈ (POSHandle.record_parent_handle
          (Function.update sample_heap 40
            { client_addr := 40, size := 8, id := 0, state_size := 0,
              parent_handles := ∅, child_handles := ∅ }) 40 5 c).child_handles ∧
      ((heap1 40).parent_handles = ∅ →
        (POSHandle.record_parent_handle
          (Function.update sample_heap 40
            { client_addr := 40, size := 8, id := 0, state_size := 0,
              parent_handles := ∅, child_handles := ∅ }) 40 5 40).parent_handles = {c}) ∧
      ((heap1 40).parent_handles = ∅ → sample_related_one.all_handles = {c} →
        (POSHandle.record_parent_handle
          (Function.update sample_heap 40
            { client_addr := 40, size := 8, id := 0, state_size := 0,
              parent_handles := ∅, child_handles := ∅ }) 40 5 40).parent_handles
          = sample_related_one.all_handles) :=
  ⟨rfl,
    allocate_mocked_resource_success sample_cfg_incremental (sample_allocate 40 100)
      sample_hm sample_heap 0 sample_related_one 8 false 0 0 _ _ _ rfl⟩

/-- C9: when the context entry holds a non-null first handle and the base-class allocator
fails, with `POS_FAILED_DRAIN` or any other status, the call returns exactly what the
allocator returned: the same status, and manager, handle store and output slot as the
allocator left them, with no parent/child relation recorded.  When the failing allocator
leaves the handle store alone, every handle, the context handle included, has the relations
it had before the call. -/
theorem allocate_mocked_resource_failure (cfg : POSConfig) (alloc : AllocateMocked)
    (hm : POSHandleManager_CUDA_Module) (heap : POSHeap) (handle : Ptr)
    (related_handles : RelatedHandles) (size : Nat) (use_expected_addr : Bool)
    (expected_addr state_size : Nat) (c : Ptr) (rest : List Ptr)
    (hctx : related_handles.lookup cfg.kPOS_ResourceTypeId_CUDA_Context = some (c :: rest))
    (hc : c ≠ nullptr)
    (hfail : (alloc hm heap handle size use_expected_addr expected_addr state_size).1
      ≠ POS_SUCCESS) :
    POSHandleManager_CUDA_Module.allocate_mocked_resource cfg alloc hm heap handle
        related_handles size use_expected_addr expected_addr state_size
      = some (alloc hm heap handle size use_expected_addr expected_addr state_size) ∧
    ((alloc hm heap handle size use_expected_addr expected_addr state_size).2.2.1 = heap →
      ∃ out, POSHandleManager_CUDA_Module.allocate_mocked_resource cfg alloc hm heap handle
          related_handles size use_expected_addr expected_addr state_size = some out ∧
        out.1 = (alloc hm heap handle size use_expected_addr expected_addr state_size).1 ∧
        out.2.2.1 = heap ∧
        (out.2.2.1 c).parent_handles = (heap c).parent_handles ∧
        (out.2.2.1 c).child_handles = (heap c).child_handles) := by
  have hrun : POSHandleManager_CUDA_Module.allocate_mocked_resource cfg alloc hm heap handle
        related_handles size use_expected_addr expected_addr state_size
      = some (alloc hm heap handle size use_expected_addr expected_addr state_size) := by
    rw [allocate_mocked_resource_with_context cfg alloc hm heap handle related_handles
      size use_expected_addr expected_addr state_size c rest hctx hc, if_pos hfail]
  refine ⟨hrun, fun hframe => ⟨_, hrun, rfl, hframe, ?_, ?_⟩⟩
  · rw [hframe]
  · rw [hframe]

/-- C9 (witness): the address space has room for size 4 only and size 8 is asked for: the
call returns `POS_FAILED_DRAIN` and nothing has changed. -/
theorem allocate_mocked_resource_failure_witness :
    (sample_related_one.lookup sample_cfg_incremental.kPOS_ResourceTypeId_CUDA_Context
        = some [5] ∧
      (5 : Ptr) ≠ nullptr ∧
      (sample_allocate 40 4 sample_hm sample_heap 0 8 false 0 0).1 ≠ POS_SUCCESS) ∧
    POSHandleManager_CUDA_Module.allocate_mocked_resource sample_cfg_incremental
        (sample_allocate 40 4) sample_hm sample_heap 0 sample_related_one 8 false 0 0
      = some (POS_FAILED_DRAIN, sample_hm, sample_heap, 0) :=
  ⟨⟨rfl, by decide, by decide⟩,
    (allocate_mocked_resource_failure sample_cfg_incremental (sample_allocate 40 4)
      sample_hm sample_heap 0 sample_related_one 8 false 0 0 5 [] rfl (by decide)
      (by decide)).1⟩

/-- C10: a module handle has no extra serialized state.  The extra size is 0, serializing
the extra block returns `POS_SUCCESS` and leaves every byte of the serialized area as it
was, deserializing returns `POS_SUCCESS` and leaves the handle as it was for every raw
input, and so deserializing what was serialized gives the handle back. -/
theorem module_extra_serialization_trivial (h : POSHandle_CUDA_Module)
    (serialized_area raw_data : List Nat) :
    POSHandle_CUDA_Module.__get_extra_serialize_size h = 0 ∧
    POSHandle_CUDA_Module.__serialize_extra h serialized_area
      = (POS_SUCCESS, serialized_area) ∧
    POSHandle_CUDA_Module.__deserialize_extra h raw_data = (POS_SUCCESS, h) ∧
    POSHandle_CUDA_Module.__deserialize_extra h
        (POSHandle_CUDA_Module.__serialize_extra h serialized_area).2
      = (POS_SUCCESS, h) :=
  ⟨rfl, rfl, rfl, rfl⟩

/-! ## Theorems: the kernel metadata cache -/

theorem digit_char_facts (d : Nat) (hd : d < 10) :
    (Char.ofNat (48 + d)).isDigit = true ∧ (Char.ofNat (48 + d)).toNat - 48 = d ∧
    Char.ofNat (48 + d) ≠ '|' ∧ Char.ofNat (48 + d) ≠ '-' ∧ Char.ofNat (48 + d) ≠ '+' ∧
    isspace (Char.ofNat (48 + d)) = false := by
  interval_cases d <;> decide

/-- A segment without delimiter, read to the end of the input. -/
theorem split_fields_last (d : Char) (f : List Char) :
    ∀ acc, d ∉ f →
      split_fields d f acc = if acc.reverse ++ f = [] then [] else [acc.reverse ++ f] := by
  induction f with
  | nil =>
    intro acc _
    simp [split_fields]
  | cons c cs ih =>
    intro acc hd
    have hc : c ≠ d := fun h => hd (by simp [h])
    have hcs : d ∉ cs := fun h => hd (by simp [h])
    simp [split_fields, hc, ih (c :: acc) hcs]

/-- A segment without delimiter, closed by a delimiter. -/
theorem split_fields_segment (d : Char) (f s : List Char) :
    ∀ acc, d ∉ f →
      split_fields d (f ++ d :: s) acc = (acc.reverse ++ f) :: split_fields d s [] := by
  induction f with
  | nil =>
    intro acc _
    simp [split_fields]
  | cons c cs ih =>
    intro acc hd
    have hc : c ≠ d := fun h => hd (by simp [h])
    have hcs : d ∉ cs := fun h => hd (by simp [h])
    simp [split_fields, hc, ih (c :: acc) hcs]

/-- Splitting undoes joining, for fields without `'|'` the last of which is not empty. -/
theorem split_line_join_fields (fs : List Str) :
    fs ≠ [] → (∀ f ∈ fs, '|' ∉ f) → (∀ l, fs.getLast? = some l → l ≠ []) →
      split_line (join_fields fs) = fs := by
  induction fs with
  | nil => intro h; exact absurd rfl h
  | cons f rest ih =>
    intro _ hbar hlast
    cases rest with
    | nil =>
      have hf : f ≠ [] := hlast f (by simp)
      have := split_fields_last '|' f [] (hbar f (by simp))
      simp [split_line, join_fields, this, hf]
    | cons g rest2 =>
      have hrec := ih (by simp) (fun x hx => hbar x (by simp [hx]))
        (fun l hl => hlast l (by simpa [List.getLast?_cons_cons] using hl))
      have := split_fields_segment '|' f (join_fields (g :: rest2)) [] (hbar f (by simp))
      simp only [split_line] at hrec
      simp [split_line, join_fields, this, hrec]

theorem plain_digit_of (d : Nat) (hd : d < 10) : plain_digit (Char.ofNat (48 + d)) := by
  obtain ⟨h1, _, h3, h4, h5, h6⟩ := digit_char_facts d hd
  exact ⟨h1, h3, h4, h5, h6⟩

theorem strtoul_digits_append (xs ys : List Char) :
    ∀ acc, (∀ x ∈ xs, x.isDigit = true) →
      strtoul_digits (xs ++ ys) acc = strtoul_digits ys (strtoul_digits xs acc) := by
  induction xs with
  | nil => intro acc _; rfl
  | cons x xs ih =>
    intro acc h
    have hx : x.isDigit = true := h x (by simp)
    simp [strtoul_digits, hx, ih _ (fun y hy => h y (by simp [hy]))]

theorem decimal_digits_spec (fuel : Nat) :
    ∀ n, n < fuel →
      decimal_digits fuel n ≠ [] ∧ (∀ c ∈ decimal_digits fuel n, plain_digit c) ∧
      strtoul_digits (decimal_digits fuel n) 0 = n := by
  induction fuel with
  | zero => intro n h; omega
  | succ fuel ih =>
    intro n hn
    by_cases h10 : n < 10
    · obtain ⟨h1, h2, _⟩ := digit_char_facts n h10
      refine ⟨by simp [decimal_digits, h10], ?_, ?_⟩
      · intro c hc
        simp [decimal_digits, h10] at hc
        subst hc
        exact plain_digit_of n h10
      · simp [decimal_digits, h10, strtoul_digits, h1, h2]
    · have hlt : n / 10 < fuel := by omega
      have hmod : n % 10 < 10 := Nat.mod_lt _ (by decide)
      obtain ⟨_, hall, hval⟩ := ih (n / 10) hlt
      obtain ⟨h1, h2, _⟩ := digit_char_facts (n % 10) hmod
      refine ⟨by simp [decimal_digits, h10], ?_, ?_⟩
      · intro c hc
        simp only [decimal_digits, h10, if_false, List.mem_append, List.mem_singleton] at hc
        rcases hc with hc | hc
        · exact hall c hc
        · subst hc
          exact plain_digit_of _ hmod
      · simp only [decimal_digits, h10, if_false]
        rw [strtoul_digits_append _ _ _ (fun x hx => (hall x hx).1), hval]
        simp only [strtoul_digits, h1, h2, if_true]
        omega

theorem decimal_ne_nil (n : Nat) : decimal n ≠ [] :=
  (decimal_digits_spec (n + 1) n (Nat.lt_succ_self n)).1

theorem decimal_no_bar (n : Nat) : '|' ∉ decimal n := fun h =>
  ((decimal_digits_spec (n + 1) n (Nat.lt_succ_self n)).2.1 _ h).2.1 rfl

/-- `std::stoul` reads a decimal rendering back. -/
theorem stoul_decimal (n : Nat) (hn : n < 2 ^ 64) : stoul (decimal n) = some n := by
  obtain ⟨hne, hall, hval⟩ := decimal_digits_spec (n + 1) n (Nat.lt_succ_self n)
  unfold decimal
  cases hds : decimal_digits (n + 1) n with
  | nil => exact absurd hds hne
  | cons c cs =>
    rw [hds] at hall hval
    obtain ⟨hdig, _, hminus, hplus, hsp⟩ := hall c (by simp)
    have hm : ¬ (some c = some '-') := fun h => hminus (Option.some.inj h)
    have hp : ¬ (some c = some '+') := fun h => hplus (Option.some.inj h)
    have hv : ¬ (2 ^ 64 ≤ strtoul_digits (c :: cs) 0) := by rw [hval]; omega
    unfold stoul
    simp only [List.dropWhile, hsp, List.head?_cons, hm, hp, or_self, if_false, hdig, if_true,
      ge_iff_le, hv, decide_False, Bool.false_eq_true]
    rw [hval]

theorem all_u32_cons (v : Nat) (vs : List Nat) :
    all_u32 (v :: vs) ↔ v < 2 ^ 32 ∧ all_u32 vs := by
  simp [all_u32]

/-- Reading the field under the cursor, given what lies from the cursor on. -/
theorem field_at_cursor (metas : List Str) (ptr : Nat) (x : Str) (r : List Str)
    (h : metas.drop ptr = x :: r) : metas[ptr]? = some x ∧ metas.drop (ptr + 1) = r := by
  constructor
  · have := @List.getElem?_drop _ metas ptr 0
    rw [h] at this
    simpa using this.symm
  · have := List.drop_drop 1 ptr metas
    rw [h] at this
    simpa [Nat.add_comm] using this.symm

theorem stoul_decimal_u32 (v : Nat) (hv : v < 2 ^ 32) : stoul (decimal v) = some v :=
  stoul_decimal v (by omega)

/-- The loop over a list of numbers below `2^32`, each written in decimal: it reads the
numbers back and leaves the cursor behind them. -/
theorem read_u32_params_spec (metas : List Str) (ptr : Nat) (vs : List Nat) :
    ∀ (i : Nat) (r : List Str), metas.drop (ptr + i) = vs.map decimal ++ r → all_u32 vs →
      read_u32_params metas ptr i vs.length = some vs ∧
      metas.drop (ptr + i + vs.length) = r := by
  induction vs with
  | nil =>
    intro i r h _
    exact ⟨rfl, by simpa using h⟩
  | cons v vs ih =>
    intro i r h hall
    obtain ⟨hv, hvs⟩ := (all_u32_cons v vs).mp hall
    obtain ⟨hget, hdrop⟩ := field_at_cursor metas (ptr + i) (decimal v)
      (vs.map decimal ++ r) (by simpa using h)
    obtain ⟨hrec, hrest⟩ := ih (i + 1) r (by simpa [Nat.add_assoc] using hdrop) hvs
    refine ⟨?_, ?_⟩
    · simp [read_u32_params, hget, stoul_decimal_u32 v hv, hrec]
      omega
    · rw [← hrest]
      congr 1
      simp only [List.length_cons]
      omega

/-- The loop over the confirmed pairs, each number written in decimal: it reads the pairs
back. -/
theorem read_confirmed_params_spec (metas : List Str) (ptr : Nat) (ps : List (Nat × Nat)) :
    ∀ (i : Nat) (r : List Str),
      metas.drop (ptr + 2 * i) = (flatten_pairs ps).map decimal ++ r →
      all_u32 (flatten_pairs ps) →
      read_confirmed_params metas ptr i ps.length = some ps := by
  induction ps with
  | nil =>
    intro i r _ _
    rfl
  | cons p ps ih =>
    intro i r h hall
    obtain ⟨a, b⟩ := p
    simp only [flatten_pairs] at h hall
    obtain ⟨ha, hall1⟩ := (all_u32_cons _ _).mp hall
    obtain ⟨hb, hps⟩ := (all_u32_cons _ _).mp hall1
    obtain ⟨hget1, hdrop1⟩ := field_at_cursor metas (ptr + 2 * i) (decimal a) _
      (by simpa using h)
    obtain ⟨hget2, hdrop2⟩ := field_at_cursor metas (ptr + 2 * i + 1) (decimal b) _ hdrop1
    have hrec := ih (i + 1) r (by
      have : ptr + 2 * (i + 1) = ptr + 2 * i + 1 + 1 := by omega
      rw [this]
      exact hdrop2) hps
    simp [read_confirmed_params, hget1, hget2, stoul_decimal_u32 a ha,
      stoul_decimal_u32 b hb, hrec]
    omega

/-- A counted block: the count, then that many numbers. -/
theorem read_counted_u32_params_spec (metas : List Str) (ptr : Nat) (vs : List Nat)
    (r : List Str) (h : metas.drop ptr = decimal vs.length :: (vs.map decimal ++ r))
    (hlen : vs.length < 2 ^ 32) (hall : all_u32 vs) :
    read_counted_u32_params metas ptr = some (vs, ptr + 1 + vs.length) ∧
    metas.drop (ptr + 1 + vs.length) = r := by
  obtain ⟨hget, hdrop⟩ := field_at_cursor metas ptr _ _ h
  obtain ⟨hread, hrest⟩ := read_u32_params_spec metas (ptr + 1) vs 0 r (by simpa using hdrop) hall
  refine ⟨?_, by simpa using hrest⟩
  simp [read_counted_u32_params, hget, stoul_decimal_u32 _ hlen, hread]

theorem flatten_pairs_length (ps : List (Nat × Nat)) :
    (flatten_pairs ps).length = 2 * ps.length := by
  induction ps with
  | nil => rfl
  | cons p ps ih =>
    obtain ⟨a, b⟩ := p
    simp only [flatten_pairs, List.length_cons, ih]
    omega

/-- The end of a line whose `has_verified_params` is not 1. -/
theorem read_verified_params_plain (metas : List Str) (ptr hv cbank : Nat)
    (h : metas.drop ptr = [decimal hv, decimal cbank]) (hne : hv ≠ 1)
    (hhv : hv < 2 ^ 32) (hcb : cbank < 2 ^ 32) :
    read_verified_params metas ptr = some (hv, [], cbank) := by
  obtain ⟨hget, hdrop⟩ := field_at_cursor metas ptr _ _ h
  obtain ⟨hget1, _⟩ := field_at_cursor metas (ptr + 1) _ _ hdrop
  simp [read_verified_params, hget, hget1, stoul_decimal_u32 _ hhv, stoul_decimal_u32 _ hcb,
    hne]

/-- The end of a line whose `has_verified_params` is 1: the pairs are read back; the number
read as cbank parameter size is the field `nb_confirmed_suspicious_params` places after the
first pair field, which is the cbank field of the line when there is no pair. -/
theorem read_verified_params_verified (metas : List Str) (ptr cbank : Nat)
    (ps : List (Nat × Nat))
    (h : metas.drop ptr = decimal 1 :: decimal ps.length ::
      ((flatten_pairs ps).map decimal ++ [decimal cbank]))
    (hlen : ps.length < 2 ^ 32) (hall : all_u32 (flatten_pairs ps)) (hcb : cbank < 2 ^ 32) :
    ∃ v, read_verified_params metas ptr = some (1, ps, v) ∧
      (flatten_pairs ps ++ [cbank])[ps.length]? = some v := by
  obtain ⟨hget, hdrop⟩ := field_at_cursor metas ptr _ _ h
  obtain ⟨hget1, hdrop1⟩ := field_at_cursor metas (ptr + 1) _ _ hdrop
  have hpairs := read_confirmed_params_spec metas (ptr + 1 + 1) ps 0 [decimal cbank]
    (by simpa using hdrop1) hall
  have hin : ps.length < (flatten_pairs ps ++ [cbank]).length := by
    simp only [List.length_append, flatten_pairs_length, List.length_singleton]
    omega
  have hw : (flatten_pairs ps ++ [cbank])[ps.length]?
      = some ((flatten_pairs ps ++ [cbank])[ps.length]) := List.getElem?_eq_getElem hin
  have hwlt : (flatten_pairs ps ++ [cbank])[ps.length] < 2 ^ 32 := by
    have hmem : (flatten_pairs ps ++ [cbank])[ps.length] ∈ flatten_pairs ps ++ [cbank] :=
      List.getElem_mem _
    rcases List.mem_append.mp hmem with hm | hm
    · exact hall _ hm
    · rw [List.mem_singleton.mp hm]
      exact hcb
  have hget2 : metas[ptr + 1 + 1 + ps.length]?
      = some (decimal ((flatten_pairs ps ++ [cbank])[ps.length])) := by
    rw [← List.getElem?_drop, hdrop1]
    have : List.map decimal (flatten_pairs ps) ++ [decimal cbank]
        = List.map decimal (flatten_pairs ps ++ [cbank]) := by simp
    rw [this, List.getElem?_map, hw]
    rfl
  refine ⟨_, ?_, hw⟩
  simp [read_verified_params, hget, hget1, hget2, stoul_decimal_u32 _ hlen,
    stoul_decimal_u32 _ hwlt, stoul_decimal_u32 1 (by decide), hpairs]

/-- What `generate_desp_from_meta` makes of the fields of a well-formed line: every field of
the descriptor is the one the line describes, except that the cbank parameter size is read
from the field found `nb_confirmed_suspicious_params` places after the first pair field
when `has_verified_params` is 1. -/
theorem generate_desp_from_meta_fields (l : CachedMetaLine) (hwf : l.well_formed) :
    ∃ c, generate_desp_from_meta l.fields = some { l.desp with cbank_param_size := c } ∧
      (if l.has_verified_params = 1 then
        (flatten_pairs l.confirmed_suspicious_params ++ [l.cbank_param_size])[
          l.confirmed_suspicious_params.length]? = some c
       else c = l.cbank_param_size) := by
  obtain ⟨_, _, hsz, hn, hoffs, hsizes, hnin, hin, hnout, hout, hninout, hinout, hnsus, hsus,
    hhv, hnconf, hconf, hcb⟩ := hwf
  obtain ⟨hget0, hdrop0⟩ := field_at_cursor l.fields 0 _ _
    (show l.fields.drop 0 = _ from rfl)
  obtain ⟨hget1, hdrop1⟩ := field_at_cursor l.fields (0 + 1) _ _ hdrop0
  obtain ⟨hget2, hdrop2⟩ := field_at_cursor l.fields (0 + 1 + 1) _ _ hdrop1
  obtain ⟨hroffs, hdrop3⟩ := read_u32_params_spec l.fields (0 + 1 + 1 + 1) l.param_offsets 0 _
    (by simpa using hdrop2) hoffs
  obtain ⟨hrsizes, hdrop4⟩ := read_u32_params_spec l.fields
    (0 + 1 + 1 + 1 + l.param_offsets.length) l.param_sizes 0 _ (by simpa using hdrop3) hsizes
  rw [hsz] at hrsizes
  obtain ⟨hrin, hdrop5⟩ := read_counted_u32_params_spec l.fields
    (0 + 1 + 1 + 1 + l.param_offsets.length + l.param_offsets.length)
    l.input_pointer_params _ (by simpa [hsz] using hdrop4) hnin hin
  obtain ⟨hrout, hdrop6⟩ := read_counted_u32_params_spec l.fields _
    l.output_pointer_params _ hdrop5 hnout hout
  obtain ⟨hrinout, hdrop7⟩ := read_counted_u32_params_spec l.fields _
    l.inout_pointer_params _ hdrop6 hninout hinout
  obtain ⟨hrsus, hdrop8⟩ := read_counted_u32_params_spec l.fields _
    l.suspicious_params _ hdrop7 hnsus hsus
  by_cases hv1 : l.has_verified_params = 1
  · have hfields : l.verified_fields = decimal 1 ::
        decimal l.confirmed_suspicious_params.length ::
          ((flatten_pairs l.confirmed_suspicious_params).map decimal ++
            [decimal l.cbank_param_size]) := by
      simp [CachedMetaLine.verified_fields, hv1]
    rw [hfields] at hdrop8
    obtain ⟨v, hrver, hv⟩ := read_verified_params_verified l.fields _ l.cbank_param_size
      l.confirmed_suspicious_params hdrop8 hnconf hconf hcb
    refine ⟨v, ?_, by simpa [hv1] using hv⟩
    simp only [generate_desp_from_meta, hget0, hget1, hget2, Option.some_bind,
      stoul_decimal_u32 _ hn, hroffs, hrsizes, hrin, hrout, hrinout, hrsus, hrver]
    simp [CachedMetaLine.desp, hv1]
  · have hfields : l.verified_fields =
        [decimal l.has_verified_params, decimal l.cbank_param_size] := by
      simp [CachedMetaLine.verified_fields, hv1]
    rw [hfields] at hdrop8
    have hrver := read_verified_params_plain l.fields _ l.has_verified_params
      l.cbank_param_size hdrop8 hv1 hhv hcb
    refine ⟨l.cbank_param_size, ?_, by simp [hv1]⟩
    simp only [generate_desp_from_meta, hget0, hget1, hget2, Option.some_bind,
      stoul_decimal_u32 _ hn, hroffs, hrsizes, hrin, hrout, hrinout, hrsus, hrver]
    simp [CachedMetaLine.desp, hv1]

theorem map_decimal_no_bar (vs : List Nat) : ∀ f ∈ vs.map decimal, '|' ∉ f := by
  intro f hf
  obtain ⟨v, _, rfl⟩ := List.mem_map.mp hf
  exact decimal_no_bar v

theorem verified_fields_no_bar (l : CachedMetaLine) : ∀ f ∈ l.verified_fields, '|' ∉ f := by
  intro f hf
  have hmap : l.verified_fields =
      (if l.has_verified_params = 1 then
        l.has_verified_params :: l.confirmed_suspicious_params.length ::
          (flatten_pairs l.confirmed_suspicious_params ++ [l.cbank_param_size])
       else [l.has_verified_params, l.cbank_param_size]).map decimal := by
    unfold CachedMetaLine.verified_fields
    split <;> simp
  rw [hmap] at hf
  exact map_decimal_no_bar _ f hf

theorem verified_fields_last (l : CachedMetaLine) :
    ∃ pre, l.verified_fields = pre ++ [decimal l.cbank_param_size] := by
  unfold CachedMetaLine.verified_fields
  split
  · exact ⟨decimal l.has_verified_params :: decimal l.confirmed_suspicious_params.length ::
      (flatten_pairs l.confirmed_suspicious_params).map decimal, by simp⟩
  · exact ⟨[decimal l.has_verified_params], by simp⟩

theorem fields_last (l : CachedMetaLine) :
    ∃ pre, l.fields = pre ++ [decimal l.cbank_param_size] := by
  obtain ⟨pre, hpre⟩ := verified_fields_last l
  refine ⟨l.name :: l.signature :: decimal l.param_offsets.length ::
    (l.param_offsets.map decimal ++ (l.param_sizes.map decimal ++
      (decimal l.input_pointer_params.length :: (l.input_pointer_params.map decimal ++
        (decimal l.output_pointer_params.length :: (l.output_pointer_params.map decimal ++
          (decimal l.inout_pointer_params.length :: (l.inout_pointer_params.map decimal ++
            (decimal l.suspicious_params.length :: (l.suspicious_params.map decimal ++
              pre)))))))))), ?_⟩
  simp [CachedMetaLine.fields, hpre]

/-- Splitting the line of a well-formed description gives back its fields. -/
theorem split_line_render (l : CachedMetaLine) (hwf : l.well_formed) :
    split_line l.render = l.fields := by
  apply split_line_join_fields
  · simp [CachedMetaLine.fields]
  · intro f hf
    simp only [CachedMetaLine.fields, List.mem_cons, List.mem_append] at hf
    rcases hf with h | h | h | h | h | h | h | h | h | h | h | h | h | h
    · subst h; exact hwf.1
    · subst h; exact hwf.2.1
    · subst h; exact decimal_no_bar _
    · exact map_decimal_no_bar _ f h
    · exact map_decimal_no_bar _ f h
    · subst h; exact decimal_no_bar _
    · exact map_decimal_no_bar _ f h
    · subst h; exact decimal_no_bar _
    · exact map_decimal_no_bar _ f h
    · subst h; exact decimal_no_bar _
    · exact map_decimal_no_bar _ f h
    · subst h; exact decimal_no_bar _
    · exact map_decimal_no_bar _ f h
    · exact verified_fields_no_bar l f h
  · intro x hx
    obtain ⟨pre, hpre⟩ := fields_last l
    rw [hpre] at hx
    simp at hx
    rw [← hx]
    exact decimal_ne_nil _

/-- What `generate_desp_from_meta` makes of a well-formed line, split at `'|'`. -/
theorem generate_desp_from_meta_render (l : CachedMetaLine) (hwf : l.well_formed) :
    ∃ c, generate_desp_from_meta (split_line l.render)
        = some { l.desp with cbank_param_size := c } ∧
      (if l.has_verified_params = 1 then
        (flatten_pairs l.confirmed_suspicious_params ++ [l.cbank_param_size])[
          l.confirmed_suspicious_params.length]? = some c
       else c = l.cbank_param_size) := by
  rw [split_line_render l hwf]
  exact generate_desp_from_meta_fields l hwf

/-! ### Association lists -/

theorem lookup_append_or {α β : Type} [BEq α] (l1 l2 : List (α × β)) (k : α) :
    (l1 ++ l2).lookup k = (l1.lookup k).or (l2.lookup k) := by
  induction l1 with
  | nil => simp [List.lookup]
  | cons e l1 ih =>
    obtain ⟨a, b⟩ := e
    simp only [List.cons_append, List.lookup]
    cases k == a <;> simp [ih]

theorem lookup_isSome_iff_mem_keys {α β : Type} [BEq α] [LawfulBEq α] (l : List (α × β))
    (k : α) : (l.lookup k).isSome = true ↔ k ∈ l.map Prod.fst := by
  induction l with
  | nil => simp [List.lookup]
  | cons e l ih =>
    obtain ⟨a, b⟩ := e
    simp only [List.lookup, List.map_cons, List.mem_cons]
    by_cases hka : k = a
    · subst hka
      simp
    · have : (k == a) = false := by simpa using hka
      simp [this, ih, hka]

theorem FunctionDespMap.lookup_insert (m : FunctionDespMap) (k : Str)
    (d : POSCudaFunctionDesp) (k1 : Str) :
    (m.insert k d).lookup k1 = (m.lookup k1).or (if k1 = k then some d else none) := by
  unfold FunctionDespMap.insert
  by_cases h : (m.lookup k).isSome = true
  · simp only [h, if_true]
    by_cases hk : k1 = k
    · subst hk
      obtain ⟨x, hx⟩ := Option.isSome_iff_exists.mp h
      simp [hx]
    · simp [hk]
  · simp only [h]
    rw [if_neg (by simp), lookup_append_or]
    congr 1
    by_cases hk : k1 = k
    · subst hk
      simp [List.lookup]
    · have : (k1 == k) = false := by simpa using hk
      simp [List.lookup, this, hk]

theorem FunctionDespMap.keys_insert (m : FunctionDespMap) (k : Str)
    (d : POSCudaFunctionDesp) (hnd : (m.map Prod.fst).Nodup) :
    ((m.insert k d).map Prod.fst).Nodup := by
  unfold FunctionDespMap.insert
  by_cases h : (m.lookup k).isSome = true
  · simpa [h] using hnd
  · have hk : k ∉ m.map Prod.fst := fun hmem => h ((lookup_isSome_iff_mem_keys m k).mpr hmem)
    rw [if_neg h]
    simp only [List.map_append, List.map_cons, List.map_nil]
    exact List.Nodup.append hnd (List.nodup_singleton k) (by
      intro x hx hx1
      rw [List.mem_singleton.mp hx1] at hx
      exact hk hx)

/-! ### The loader -/

theorem sample_lines_render :
    sample_line_plain.render = "k|s|2|0|8|8|8|1|0|1|1|0|0|0|16".toList ∧
    sample_line_verified.render = "v|s|0|0|0|0|0|1|1|3|40|16".toList ∧
    sample_line_late.render = "k|t|0|0|0|0|0|0|32".toList := by
  decide

/-- The loop over the lines of a file of well-formed lines: it ends with a map in which a
name that was in the map before keeps its descriptor, and a name that was not gets the
descriptor built from the earliest line carrying it; keys stay without repetition. -/
theorem load_cached_function_metas_lines_spec (ls : List CachedMetaLine) :
    (∀ l ∈ ls, l.well_formed) → ∀ m : FunctionDespMap,
      ∃ m1, load_cached_function_metas_lines m (ls.map CachedMetaLine.render) = some m1 ∧
        (∀ k, m1.lookup k = (m.lookup k).or (earliest_desp ls k)) ∧
        ((m.map Prod.fst).Nodup → (m1.map Prod.fst).Nodup) := by
  induction ls with
  | nil =>
    intro _ m
    exact ⟨m, rfl, by simp [earliest_desp], id⟩
  | cons l ls ih =>
    intro hwf m
    obtain ⟨c, hgen, _⟩ := generate_desp_from_meta_render l (hwf l (by simp))
    obtain ⟨m1, hrun, hlook, hnd⟩ := ih (fun x hx => hwf x (by simp [hx]))
      (m.insert l.name { l.desp with cbank_param_size := c })
    refine ⟨m1, ?_, ?_, fun h => hnd (FunctionDespMap.keys_insert m _ _ h)⟩
    · simp only [List.map_cons, load_cached_function_metas_lines, hgen]
      exact hrun
    · intro k
      rw [hlook k, FunctionDespMap.lookup_insert]
      by_cases hk : k = l.name
      · subst hk
        cases m.lookup l.name <;> simp [earliest_desp, hgen]
      · have hk1 : ¬ (l.name = k) := fun h => hk h.symm
        cases m.lookup k <;> simp [earliest_desp, List.find?, hk, hk1]

theorem earliest_desp_mem (ls : List CachedMetaLine) (k : Str) (d : POSCudaFunctionDesp)
    (h : earliest_desp ls k = some d) : ∃ l ∈ ls, l.name = k := by
  unfold earliest_desp at h
  cases hf : ls.find? (fun l => decide (l.name = k)) with
  | none => simp [hf] at h
  | some l =>
    exact ⟨l, List.mem_of_find?_eq_some hf, by simpa using List.find?_some hf⟩

/-- The earliest line with a name, when the lines before it carry other names. -/
theorem earliest_desp_first (pre post : List CachedMetaLine) (l : CachedMetaLine)
    (hpre : ∀ x ∈ pre, x.name ≠ l.name) :
    earliest_desp (pre ++ l :: post) l.name
      = generate_desp_from_meta (split_line l.render) := by
  induction pre with
  | nil => simp [earliest_desp]
  | cons x pre ih =>
    have hx : ¬ (x.name = l.name) := hpre x (by simp)
    have := ih (fun y hy => hpre y (by simp [hy]))
    simp only [earliest_desp] at this ⊢
    simpa [List.find?, hx] using this

theorem earliest_desp_isSome (ls : List CachedMetaLine) (hwf : ∀ l ∈ ls, l.well_formed)
    (k : Str) : (earliest_desp ls k).isSome = true ↔ ∃ l ∈ ls, l.name = k := by
  constructor
  · intro h
    obtain ⟨d, hd⟩ := Option.isSome_iff_exists.mp h
    exact earliest_desp_mem ls k d hd
  · rintro ⟨l, hl, hname⟩
    unfold earliest_desp
    cases hf : ls.find? (fun l => decide (l.name = k)) with
    | none =>
      have := List.find?_eq_none.mp hf l hl
      simp [hname] at this
    | some x =>
      obtain ⟨c, hgen, _⟩ := generate_desp_from_meta_render x
        (hwf x (List.mem_of_find?_eq_some hf))
      simp [hgen]

/-- The loader on a file of well-formed lines, in closed form. -/
theorem load_cached_function_metas_well_formed (fs : FileSystem)
    (hm : POSHandleManager_CUDA_Module) (file_path : Str) (ls : List CachedMetaLine)
    (hwf : ∀ l ∈ ls, l.well_formed)
    (hfile : fs file_path = some (ls.map CachedMetaLine.render)) :
    ∃ m1, POSHandleManager_CUDA_Module.load_cached_function_metas fs hm file_path
        = some (POS_SUCCESS, { hm with cached_function_desps := m1 }) ∧
      (∀ k, m1.lookup k = (hm.cached_function_desps.lookup k).or (earliest_desp ls k)) ∧
      ((hm.cached_function_desps.map Prod.fst).Nodup → (m1.map Prod.fst).Nodup) := by
  obtain ⟨m1, hrun, hlook, hnd⟩ :=
    load_cached_function_metas_lines_spec ls hwf hm.cached_function_desps
  refine ⟨m1, ?_, hlook, hnd⟩
  simp [POSHandleManager_CUDA_Module.load_cached_function_metas, hfile, hrun]

/-! ### Claims C11 to C18 -/

/-- C11: the module manager never pools handles.  For every amount
`preserve_pooled_handles` returns `POS_SUCCESS` and leaves the manager as it was; for every
module handle `try_restore_from_pool` returns `POS_FAILED` and leaves manager and handle
as they were, also right after `preserve_pooled_handles`. -/
theorem module_manager_never_pools (hm : POSHandleManager_CUDA_Module) (amount : Nat)
    (handle : POSHandle_CUDA_Module) :
    hm.preserve_pooled_handles amount = (POS_SUCCESS, hm) ∧
    hm.try_restore_from_pool handle = (POS_FAILED, hm, handle) ∧
    (hm.preserve_pooled_handles amount).2.try_restore_from_pool handle
      = (POS_FAILED, hm, handle) :=
  ⟨rfl, rfl, rfl⟩

/-- C12 (the code at the failing inputs): a file whose only line is empty makes
`generate_desp_from_meta` read `metas[0]` of an empty field list, so the loader has no
result; the same happens for a count that is not a number (`std::stoul` throws) and for a
count larger than the number of fields left. -/
theorem load_malformed_line_no_result :
    sample_fs "blank".toList = some [[]] ∧
    split_line [] = [] ∧
    generate_desp_from_meta (split_line []) = none ∧
    POSHandleManager_CUDA_Module.load_cached_function_metas sample_fs sample_hm
      "blank".toList = none ∧
    stoul "x".toList = none ∧
    generate_desp_from_meta (split_line "k|s|x".toList) = none ∧
    (split_line "k|s|3|0|8".toList).length = 5 ∧
    generate_desp_from_meta (split_line "k|s|3|0|8".toList) = none := by
  decide

/-- C13: when the file cannot be opened the loader returns `POS_FAILED_NOT_EXIST` and
leaves the manager, `cached_function_desps` included, as it was; when the file can be opened
and holds only well-formed lines the loader returns `POS_SUCCESS`. -/
theorem load_missing_or_well_formed (fs : FileSystem) (hm : POSHandleManager_CUDA_Module)
    (file_path : Str) :
    (fs file_path = none →
      POSHandleManager_CUDA_Module.load_cached_function_metas fs hm file_path
        = some (POS_FAILED_NOT_EXIST, hm)) ∧
    (∀ ls : List CachedMetaLine, (∀ l ∈ ls, l.well_formed) →
      fs file_path = some (ls.map CachedMetaLine.render) →
      ∃ hm1, POSHandleManager_CUDA_Module.load_cached_function_metas fs hm file_path
        = some (POS_SUCCESS, hm1)) := by
  constructor
  · intro h
    simp [POSHandleManager_CUDA_Module.load_cached_function_metas, h]
  · intro ls hwf hfile
    obtain ⟨m1, hrun, _⟩ := load_cached_function_metas_well_formed fs hm file_path ls hwf hfile
    exact ⟨_, hrun⟩

/-- C13 (witness): a path that cannot be opened, and the file of the three sample lines. -/
theorem load_missing_or_well_formed_witness :
    POSHandleManager_CUDA_Module.load_cached_function_metas sample_fs sample_hm_cached
        "nowhere".toList = some (POS_FAILED_NOT_EXIST, sample_hm_cached) ∧
    ∃ hm1, POSHandleManager_CUDA_Module.load_cached_function_metas sample_fs sample_hm_cached
        "metas".toList = some (POS_SUCCESS, hm1) :=
  ⟨(load_missing_or_well_formed sample_fs sample_hm_cached "nowhere".toList).1 (by decide),
    (load_missing_or_well_formed sample_fs sample_hm_cached "metas".toList).2
      [sample_line_plain, sample_line_verified, sample_line_late] (by decide) (by decide)⟩

/-- C14 (counterexample): the third line of the sample file, `k|t|0|0|0|0|0|0|32`, is
well-formed with `has_verified_params` 0, but the first line carries the same kernel name
`k`: after the loader has returned `POS_SUCCESS`, the map holds under `k` the descriptor of
the first line (signature `s`, cbank parameter size 16), not one whose fields are those of
the third line (signature `t`, cbank parameter size 32). -/
theorem load_later_line_not_stored_counterexample :
    sample_line_late.well_formed ∧
    sample_line_late.has_verified_params ≠ 1 ∧
    sample_line_late.render = "k|t|0|0|0|0|0|0|32".toList ∧
    sample_fs "metas".toList = some [sample_line_plain.render, sample_line_verified.render,
      sample_line_late.render] ∧
    ∃ hm1 d, POSHandleManager_CUDA_Module.load_cached_function_metas sample_fs sample_hm
        "metas".toList = some (POS_SUCCESS, hm1) ∧
      hm1.cached_function_desps.lookup sample_line_late.name = some d ∧
      d = sample_line_plain.desp ∧
      d.signature ≠ sample_line_late.signature ∧
      d.nb_params ≠ sample_line_late.param_offsets.length ∧
      d.cbank_param_size ≠ sample_line_late.cbank_param_size :=
  ⟨by decide, by decide, by decide, by decide, _, _, rfl, by decide, rfl, by decide,
    by decide, by decide⟩

/-- C14 (amended): a well-formed line whose `has_verified_params` field is not 1, in a
file of well-formed lines, under a kernel name that is neither in the map already nor on an
earlier line of the file: after the loader has returned `POS_SUCCESS` the map holds under
that name
the descriptor whose name, signature, number of parameters, parameter offsets and sizes,
input, output, inout and suspicious indices, `has_verified_params` and cbank parameter size
are the fields of the line, lists in file order, with no confirmed pair. -/
theorem load_stores_plain_line (fs : FileSystem) (hm : POSHandleManager_CUDA_Module)
    (file_path : Str) (pre post : List CachedMetaLine) (l : CachedMetaLine)
    (hwf : ∀ x ∈ pre ++ l :: post, x.well_formed)
    (hfile : fs file_path = some ((pre ++ l :: post).map CachedMetaLine.render))
    (hplain : l.has_verified_params ≠ 1)
    (hfresh : hm.cached_function_desps.lookup l.name = none)
    (hfirst : ∀ x ∈ pre, x.name ≠ l.name) :
    ∃ hm1, POSHandleManager_CUDA_Module.load_cached_function_metas fs hm file_path
        = some (POS_SUCCESS, hm1) ∧
      hm1.cached_function_desps.lookup l.name =
        some { name := l.name, signature := l.signature,
               nb_params := l.param_offsets.length,
               param_offsets := l.param_offsets, param_sizes := l.param_sizes,
               input_pointer_params := l.input_pointer_params,
               output_pointer_params := l.output_pointer_params,
               inout_pointer_params := l.inout_pointer_params,
               suspicious_params := l.suspicious_params,
               has_verified_params := l.has_verified_params,
               confirmed_suspicious_params := [],
               cbank_param_size := l.cbank_param_size } := by
  obtain ⟨m1, hrun, hlook, _⟩ :=
    load_cached_function_metas_well_formed fs hm file_path _ hwf hfile
  refine ⟨_, hrun, ?_⟩
  obtain ⟨c, hgen, hc⟩ := generate_desp_from_meta_render l (hwf l (by simp))
  simp only [hplain, if_false] at hc
  subst hc
  show m1.lookup l.name = _
  rw [hlook l.name, hfresh, earliest_desp_first pre post l hfirst, hgen]
  simp [CachedMetaLine.desp, hplain]

/-- C14 (witness): the first line of the sample file, `k|s|2|0|8|8|8|1|0|1|1|0|0|0|16`. -/
theorem load_stores_plain_line_witness :
    ((∀ x ∈ [] ++ sample_line_plain :: [sample_line_verified, sample_line_late],
        x.well_formed) ∧
      sample_fs "metas".toList = some (([] ++ sample_line_plain ::
        [sample_line_verified, sample_line_late]).map CachedMetaLine.render) ∧
      sample_line_plain.has_verified_params ≠ 1 ∧
      sample_hm.cached_function_desps.lookup sample_line_plain.name = none ∧
      ∀ x ∈ ([] : List CachedMetaLine), x.name ≠ sample_line_plain.name) ∧
    ∃ hm1, POSHandleManager_CUDA_Module.load_cached_function_metas sample_fs sample_hm
        "metas".toList = some (POS_SUCCESS, hm1) ∧
      hm1.cached_function_desps.lookup sample_line_plain.name =
        some { name := sample_line_plain.name, signature := sample_line_plain.signature,
               nb_params := sample_line_plain.param_offsets.length,
               param_offsets := sample_line_plain.param_offsets,
               param_sizes := sample_line_plain.param_sizes,
               input_pointer_params := sample_line_plain.input_pointer_params,
               output_pointer_params := sample_line_plain.output_pointer_params,
               inout_pointer_params := sample_line_plain.inout_pointer_params,
               suspicious_params := sample_line_plain.suspicious_params,
               has_verified_params := sample_line_plain.has_verified_params,
               confirmed_suspicious_params := [],
               cbank_param_size := sample_line_plain.cbank_param_size } :=
  ⟨⟨by decide, by decide, by decide, by decide, by decide⟩,
    load_stores_plain_line sample_fs sample_hm "metas".toList []
      [sample_line_verified, sample_line_late] sample_line_plain
      (by decide) (by decide) (by decide) (by decide) (by decide)⟩

/-- C16 (the code at the failing input): the well-formed line `v|s|0|0|0|0|0|1|1|3|40|16`
has `has_verified_params` 1, one pair (3, 40) and 16 as last field.  The pair is read back,
but the cursor is advanced by the number of pairs, not by the number of pair fields, so the
cbank parameter size is read from the second pair field: it is 40, not 16. -/
theorem verified_line_cbank_misread :
    sample_line_verified.well_formed ∧
    sample_line_verified.render = "v|s|0|0|0|0|0|1|1|3|40|16".toList ∧
    (split_line sample_line_verified.render).getLast? = some "16".toList ∧
    ∃ d, generate_desp_from_meta (split_line sample_line_verified.render) = some d ∧
      d.has_verified_params = 1 ∧
      d.confirmed_suspicious_params = [(3, 40)] ∧
      d.cbank_param_size = 40 ∧ d.cbank_param_size ≠ 16 ∧
      POSHandleManager_CUDA_Module.load_cached_function_metas sample_fs sample_hm
        "verified".toList
        = some (POS_SUCCESS, { sample_hm with cached_function_desps := [("v".toList, d)] }) :=
  ⟨by decide, by decide, by decide, _, rfl, by decide, by decide, by decide, by decide,
    by decide⟩

/-- C18: for a file of well-formed lines and a map without repeated keys, after the loader
has returned `POS_SUCCESS` the map still has no repeated key; its keys are the keys it held
before and the kernel names of the file; a name it held before keeps its descriptor; and a
name it did not hold gets the descriptor built from the earliest line carrying that name,
later lines with the same name leaving it as it is. -/
theorem load_keeps_earliest (fs : FileSystem) (hm : POSHandleManager_CUDA_Module)
    (file_path : Str) (ls : List CachedMetaLine)
    (hwf : ∀ l ∈ ls, l.well_formed)
    (hfile : fs file_path = some (ls.map CachedMetaLine.render))
    (hnd : (hm.cached_function_desps.map Prod.fst).Nodup) :
    ∃ hm1, POSHandleManager_CUDA_Module.load_cached_function_metas fs hm file_path
        = some (POS_SUCCESS, hm1) ∧
      (hm1.cached_function_desps.map Prod.fst).Nodup ∧
      (∀ k, k ∈ hm1.cached_function_desps.map Prod.fst ↔
        (k ∈ hm.cached_function_desps.map Prod.fst ∨ ∃ l ∈ ls, l.name = k)) ∧
      (∀ k d, hm.cached_function_desps.lookup k = some d →
        hm1.cached_function_desps.lookup k = some d) ∧
      (∀ pre l post, ls = pre ++ l :: post → (∀ x ∈ pre, x.name ≠ l.name) →
        hm.cached_function_desps.lookup l.name = none →
        hm1.cached_function_desps.lookup l.name
          = generate_desp_from_meta (split_line l.render)) := by
  obtain ⟨m1, hrun, hlook, hnd1⟩ :=
    load_cached_function_metas_well_formed fs hm file_path ls hwf hfile
  refine ⟨_, hrun, hnd1 hnd, ?_, ?_, ?_⟩
  · intro k
    show k ∈ m1.map Prod.fst ↔ _
    rw [← lookup_isSome_iff_mem_keys m1 k, ← lookup_isSome_iff_mem_keys _ k,
      ← earliest_desp_isSome ls hwf k, hlook k]
    cases hm.cached_function_desps.lookup k <;> simp
  · intro k d hk
    show m1.lookup k = _
    rw [hlook k, hk]
    rfl
  · intro pre l post hls hpre hfresh
    show m1.lookup l.name = _
    rw [hlook l.name, hfresh, hls, earliest_desp_first pre post l hpre]
    rfl

/-- C18 (witness): the sample file, in which the name `k` is on the first and on the third
line, loaded into a map that already holds the name `v` of the second line. -/
theorem load_keeps_earliest_witness :
    ((∀ l ∈ [sample_line_plain, sample_line_verified, sample_line_late], l.well_formed) ∧
      sample_fs "metas".toList = some ([sample_line_plain, sample_line_verified,
        sample_line_late].map CachedMetaLine.render) ∧
      (sample_hm_cached.cached_function_desps.map Prod.fst).Nodup) ∧
    ∃ hm1, POSHandleManager_CUDA_Module.load_cached_function_metas sample_fs sample_hm_cached
        "metas".toList = some (POS_SUCCESS, hm1) ∧
      (hm1.cached_function_desps.map Prod.fst).Nodup ∧
      (∀ k, k ∈ hm1.cached_function_desps.map Prod.fst ↔
        (k ∈ sample_hm_cached.cached_function_desps.map Prod.fst ∨
          ∃ l ∈ [sample_line_plain, sample_line_verified, sample_line_late], l.name = k)) ∧
      (∀ k d, sample_hm_cached.cached_function_desps.lookup k = some d →
        hm1.cached_function_desps.lookup k = some d) ∧
      (∀ pre l post, [sample_line_plain, sample_line_verified, sample_line_late]
          = pre ++ l :: post → (∀ x ∈ pre, x.name ≠ l.name) →
        sample_hm_cached.cached_function_desps.lookup l.name = none →
        hm1.cached_function_desps.lookup l.name
          = generate_desp_from_meta (split_line l.render)) :=
  ⟨⟨by decide, by decide, by decide⟩,
    load_keeps_earliest sample_fs sample_hm_cached "metas".toList
      [sample_line_plain, sample_line_verified, sample_line_late]
      (by decide) (by decide) (by decide)⟩

/-- The sample file loaded into the map that holds `v`: the map ends with `v` as it was and
`k` from the first line; the third line, `k` again, changes nothing. -/
theorem load_sample_file :
    POSHandleManager_CUDA_Module.load_cached_function_metas sample_fs sample_hm_cached
        "metas".toList
      = some (POS_SUCCESS,
          { sample_hm_cached with
            cached_function_desps :=
              [("v".toList, sample_line_late.desp), ("k".toList, sample_line_plain.desp)] }) := by
  decide

/-- C17 (counterexample): in incremental mode, with a graph executor that refuses the node,
handle 7 is in the modified-handle set of the manager of type 3 before the call; after the
call the graph holds no node at all and both stateful managers have an empty modified set,
so the marker of handle 7 is neither captured nor kept. -/
theorem incremental_marker_dropped_counterexample :
    modified_somewhere sample_ws (sample_clients_dirty sample_wqe.client) 7 ∧
    ∃ r, checkpoint_insertion sample_cfg_incremental sample_ws sample_launch_op_failing
          sample_clients_dirty sample_wqe = some r ∧
      r.1 = POS_FAILED ∧
      (r.2 sample_wqe.client).dag.ops = [] ∧
      (r.2 sample_wqe.client).handle_managers 3 = some { _modified_handles := ∅ } ∧
      (r.2 sample_wqe.client).handle_managers 4 = some { _modified_handles := ∅ } :=
  ⟨⟨3, by decide, { _modified_handles := {7, 9} }, rfl, by decide⟩,
    _, rfl, rfl, by decide, by decide, by decide⟩

/-- C17 (amended): in incremental mode, every handle that is in some stateful manager's
modified-handle set before the call is in the recorded handle set of the checkpoint node
that `checkpoint_insertion` hands to `launch_op`, whatever the graph executor is.  Hence,
for every call in which `launch_op` enqueues the node it is handed, every such handle is in
the recorded handle set of a node of the graph after the call. -/
theorem incremental_markers_on_launched_node (cfg : POSConfig) (ws : POSWorkspace)
    (launch_op : LaunchOp) (clients : POSClients) (wqe : POSAPIContext_QE)
    (hlevel : cfg.POS_CKPT_OPT_LEVEL > 0) (hinc : cfg.POS_CKPT_ENABLE_INCREMENTAL = 1)
    (hpres : managers_present ws (clients wqe.client)) :
    ∃ (node : POSAPIContext_QE) (r : pos_retval_t × POSClients),
      checkpoint_insertion cfg ws launch_op clients wqe = some r ∧
      r.1 = (launch_op (clients wqe.client).dag node).1 ∧
      (r.2 wqe.client).dag = (launch_op (clients wqe.client).dag node).2 ∧
      (∀ h, modified_somewhere ws (clients wqe.client) h → h ∈ node.checkpoint_handles) ∧
      (node ∈ (launch_op (clients wqe.client).dag node).2.ops →
        ∀ h, modified_somewhere ws (clients wqe.client) h →
          ∃ n ∈ (r.2 wqe.client).dag.ops, h ∈ n.checkpoint_handles) := by
  have hrun := incremental_eq ws launch_op clients wqe hpres
  rw [← checkpoint_insertion_incremental_eq cfg ws launch_op clients wqe hlevel hinc] at hrun
  have hmem : ∀ h, modified_somewhere ws (clients wqe.client) h →
      h ∈ modified_union (clients wqe.client) ws.stateful_handle_type_idx := fun h hh =>
    (mem_modified_union (clients wqe.client) ws.stateful_handle_type_idx h).mpr hh
  have hdag : ((Function.update clients wqe.client
      { (clients wqe.client).cleared ws.stateful_handle_type_idx with
        dag := (launch_op (clients wqe.client).dag
          ⟨ws.checkpoint_api_id, wqe.client,
            modified_union (clients wqe.client) ws.stateful_handle_type_idx⟩).2 })
        wqe.client).dag
      = (launch_op (clients wqe.client).dag
          ⟨ws.checkpoint_api_id, wqe.client,
            modified_union (clients wqe.client) ws.stateful_handle_type_idx⟩).2 := by
    simp [Function.update_same]
  refine ⟨⟨ws.checkpoint_api_id, wqe.client,
    modified_union (clients wqe.client) ws.stateful_handle_type_idx⟩, _, hrun, rfl, hdag,
    hmem, ?_⟩
  intro hnode h hh
  refine ⟨⟨ws.checkpoint_api_id, wqe.client,
    modified_union (clients wqe.client) ws.stateful_handle_type_idx⟩, ?_, hmem h hh⟩
  rw [hdag]
  exact hnode

/-- C17 (witness): the dirty sample client with the enqueueing graph executor. -/
theorem incremental_markers_on_launched_node_witness :
    (sample_cfg_incremental.POS_CKPT_OPT_LEVEL > 0 ∧
      sample_cfg_incremental.POS_CKPT_ENABLE_INCREMENTAL = 1 ∧
      managers_present sample_ws (sample_clients_dirty sample_wqe.client)) ∧
    ∃ (node : POSAPIContext_QE) (r : pos_retval_t × POSClients),
      checkpoint_insertion sample_cfg_incremental sample_ws POSDag.launch_op
        sample_clients_dirty sample_wqe = some r ∧
      r.1 = (POSDag.launch_op (sample_clients_dirty sample_wqe.client).dag node).1 ∧
      (r.2 sample_wqe.client).dag =
        (POSDag.launch_op (sample_clients_dirty sample_wqe.client).dag node).2 ∧
      (∀ h, modified_somewhere sample_ws (sample_clients_dirty sample_wqe.client) h →
        h ∈ node.checkpoint_handles) ∧
      (node ∈ (POSDag.launch_op (sample_clients_dirty sample_wqe.client).dag node).2.ops →
        ∀ h, modified_somewhere sample_ws (sample_clients_dirty sample_wqe.client) h →
          ∃ n ∈ (r.2 sample_wqe.client).dag.ops, h ∈ n.checkpoint_handles) :=
  ⟨⟨by decide, by decide, by decide⟩,
    incremental_markers_on_launched_node sample_cfg_incremental sample_ws POSDag.launch_op
      sample_clients_dirty sample_wqe (by decide) (by decide) (by decide)⟩

/-! ### The dispatch table -/

theorem ParserFunctions.lookup_insert_parse (m : ParserFunctions) (k : Nat) (r : ps_functions)
    (k1 : Nat) :
    (m.insert k r).lookup k1 = (m.lookup k1).or (if k1 = k then some r else none) := by
  unfold ParserFunctions.insert
  by_cases h : (m.lookup k).isSome = true
  · simp only [h, if_true]
    by_cases hk : k1 = k
    · subst hk
      obtain ⟨x, hx⟩ := Option.isSome_iff_exists.mp h
      simp [hx]
    · simp [hk]
  · simp only [h]
    rw [if_neg (by simp), lookup_append_or]
    congr 1
    by_cases hk : k1 = k
    · subst hk
      simp [List.lookup]
    · have : (k1 == k) = false := by simpa using hk
      simp [List.lookup, this, hk]

/-- Inserting a list of pairs: a key of the map keeps its routine, another key gets the
routine of the first pair of the list with that key. -/
theorem ParserFunctions.lookup_insert_list (es : List (Nat × ps_functions)) :
    ∀ (m : ParserFunctions) (k : Nat),
      (m.insert_list es).lookup k = (m.lookup k).or (es.lookup k) := by
  induction es with
  | nil => intro m k; simp [ParserFunctions.insert_list, List.lookup]
  | cons e es ih =>
    intro m k
    obtain ⟨a, r⟩ := e
    simp only [ParserFunctions.insert_list, ih, ParserFunctions.lookup_insert_parse, List.lookup]
    by_cases hk : k = a
    · subst hk
      cases m.lookup k <;> simp
    · have : (k == a) = false := by simpa using hk
      cases m.lookup k <;> simp [hk, this]

/-- Inserting pairs whose keys are all in the map leaves the map as it is. -/
theorem ParserFunctions.insert_list_present (es : List (Nat × ps_functions)) :
    ∀ m : ParserFunctions, (∀ e ∈ es, (m.lookup e.1).isSome = true) →
      m.insert_list es = m := by
  induction es with
  | nil => intro m _; rfl
  | cons e es ih =>
    intro m h
    obtain ⟨a, r⟩ := e
    have ha : (m.lookup a).isSome = true := h (a, r) (by simp)
    have hins : m.insert a r = m := by simp [ParserFunctions.insert, ha]
    simp only [ParserFunctions.insert_list, hins]
    exact ih m (fun e he => h e (by simp [he]))

theorem lookup_isSome_of_mem {α β : Type} [BEq α] [LawfulBEq α] (l : List (α × β))
    (e : α × β) (he : e ∈ l) : (l.lookup e.1).isSome = true :=
  (lookup_isSome_iff_mem_keys l e.1).mpr (List.mem_map.mpr ⟨e, he, rfl⟩)

/-- In a table without repeated key, under an injective numbering of the keys, the routine
found for the number of a key is the one paired with the key. -/
theorem lookup_numbered_table (api : ApiIndex → Nat) (hinj : Function.Injective api)
    (tbl : List (ApiIndex × ps_functions)) :
    (tbl.map Prod.fst).Nodup → ∀ a r, (a, r) ∈ tbl →
      (tbl.map fun entry => (api entry.1, entry.2)).lookup (api a) = some r := by
  induction tbl with
  | nil => intro _ a r h; simp at h
  | cons e tbl ih =>
    intro hnd a r hmem
    obtain ⟨a0, r0⟩ := e
    simp only [List.map_cons, List.nodup_cons] at hnd
    rcases List.mem_cons.mp hmem with h | h
    · obtain ⟨rfl, rfl⟩ := Prod.mk.inj h
      simp [List.lookup]
    · have hne : a ≠ a0 := by
        intro heq
        subst heq
        exact hnd.1 (List.mem_map.mpr ⟨(a, r), h, rfl⟩)
      have hapi : (api a == api a0) = false := by
        simpa using fun heq => hne (hinj heq)
      simp only [List.map_cons, List.lookup, hapi]
      exact ih hnd.2 a r h

theorem ps_table_keys_nodup : (ps_table.map Prod.fst).Nodup := by decide

theorem sample_api_injective : Function.Injective sample_api := by
  intro a b h
  have := congrArg ApiIndex.ofNat h
  simpa [sample_api, ApiIndex.ofNat_toCtorIdx] using this

theorem ParserFunctions.insert_list_twice (m : ParserFunctions)
    (tbl : List (Nat × ps_functions)) :
    (m.insert_list tbl).insert_list tbl = m.insert_list tbl := by
  apply ParserFunctions.insert_list_present
  intro e he
  rw [ParserFunctions.lookup_insert_list]
  have := lookup_isSome_of_mem tbl e he
  cases m.lookup e.1 <;> simp [this]

/-- A second `init_ps_functions` changes nothing, whatever the table held at first and
whatever the values of the API index constants are. -/
theorem init_ps_functions_twice (api : ApiIndex → Nat) (m : ParserFunctions) :
    init_ps_functions api (init_ps_functions api m).2
      = (POS_SUCCESS, (init_ps_functions api m).2) := by
  simp only [init_ps_functions, ParserFunctions.insert_list_twice]

/-- C15: at startup the table is empty and the API index constants have pairwise different
values.  Then `init_ps_functions` returns `POS_SUCCESS`, and afterwards the lookup of every
API id of the initializer list yields the parse routine paired with it there; in
particular `CUDA_LAUNCH_KERNEL` and `rpc_cuLaunchKernel` both yield
`ps_functions::cuda_launch_kernel::parse`.  A second call returns `POS_SUCCESS` and leaves
the table as it is. -/
theorem init_ps_functions_table (api : ApiIndex → Nat) (hinj : Function.Injective api) :
    (init_ps_functions api []).1 = POS_SUCCESS ∧
    (∀ a r, (a, r) ∈ ps_table → (init_ps_functions api []).2.lookup (api a) = some r) ∧
    (init_ps_functions api []).2.lookup (api ApiIndex.CUDA_LAUNCH_KERNEL)
      = some ps_functions.cuda_launch_kernel ∧
    (init_ps_functions api []).2.lookup (api ApiIndex.rpc_cuLaunchKernel)
      = some ps_functions.cuda_launch_kernel ∧
    init_ps_functions api (init_ps_functions api []).2
      = (POS_SUCCESS, (init_ps_functions api []).2) := by
  have hall : ∀ a r, (a, r) ∈ ps_table →
      (init_ps_functions api []).2.lookup (api a) = some r := by
    intro a r hmem
    simp only [init_ps_functions]
    rw [ParserFunctions.lookup_insert_list]
    simp only [List.lookup, Option.none_or]
    exact lookup_numbered_table api hinj ps_table ps_table_keys_nodup a r hmem
  exact ⟨rfl, hall, hall _ _ (by decide), hall _ _ (by decide),
    init_ps_functions_twice api []⟩

/-- C15 (witness): every API index constant valued by its position in the declaration. -/
theorem init_ps_functions_table_witness :
    Function.Injective sample_api ∧
    (init_ps_functions sample_api []).1 = POS_SUCCESS ∧
    (∀ a r, (a, r) ∈ ps_table →
      (init_ps_functions sample_api []).2.lookup (sample_api a) = some r) ∧
    (init_ps_functions sample_api []).2.lookup (sample_api ApiIndex.CUDA_LAUNCH_KERNEL)
      = some ps_functions.cuda_launch_kernel ∧
    (init_ps_functions sample_api []).2.lookup (sample_api ApiIndex.rpc_cuLaunchKernel)
      = some ps_functions.cuda_launch_kernel ∧
    init_ps_functions sample_api (init_ps_functions sample_api []).2
      = (POS_SUCCESS, (init_ps_functions sample_api []).2) :=
  ⟨sample_api_injective, init_ps_functions_table sample_api sample_api_injective⟩

end PhoenixOS
